import Mathlib

/-!
Verification development for the `diskfs` library (FAT file systems, MBR/GPT
partition tables).  The definitions below are shallow embeddings of functions
of the Python source; each definition's doc comment names the source function
it translates.  Machine bytes are modelled as `Nat` values below 256, byte
strings as `List Nat`, fallible code as `Except PyErr` or `Option`.
-/

set_option maxRecDepth 4000

/-- Python exception kinds raised by the embedded code paths.
`osErr n` models `OSError` with errno `n` (2 = ENOENT, 13 = EACCES,
17 = EEXIST, 20 = ENOTDIR, 21 = EISDIR); `fsLimit` models
`FileSystemLimit`; `notModelled` marks a code path that lies outside the
scope of the embedding (it is proved unreachable where it matters). -/
inductive PyErr where
  | valueError
  | validationError
  | indexError
  | fsLimit
  | osErr (code : Nat)
  | notModelled
deriving DecidableEq, Repr

instance {ε α : Type} [DecidableEq ε] [DecidableEq α] :
    DecidableEq (Except ε α) := fun x y =>
  match x, y with
  | .ok a, .ok b =>
    if h : a = b then .isTrue (by rw [h])
    else .isFalse (fun he => h (by cases he; rfl))
  | .error a, .error b =>
    if h : a = b then .isTrue (by rw [h])
    else .isFalse (fun he => h (by cases he; rfl))
  | .ok _, .error _ => .isFalse (fun he => by cases he)
  | .error _, .ok _ => .isFalse (fun he => by cases he)

/-- FAT type (`FatType` in `fat/base.py`): FAT12, FAT16 or FAT32. -/
inductive FatKind where
  | fat12
  | fat16
  | fat32
deriving DecidableEq, Repr

/-- `BAD_CLUSTER` sentinel table from `fat/fat.py`. -/
def badCluster : FatKind → Nat
  | .fat12 => 0xFF7
  | .fat16 => 0xFFF7
  | .fat32 => 0x0FFFFFF7

/-- `CLUSTER_EOC` sentinel table from `fat/fat.py`. -/
def clusterEoc : FatKind → Nat
  | .fat12 => 0xFFF
  | .fat16 => 0xFFFF
  | .fat32 => 0x0FFFFFFF

/-- `CLUSTER_AVOID_DATA` sentinel table from `fat/fat.py`. -/
def clusterAvoidData : FatKind → Nat
  | .fat12 => 0xFF0
  | .fat16 => 0xFFF0
  | .fat32 => 0x0FFFFFF0

/-! ## DOS datetimes (`fat/directory.py`) -/

/-- A Python `datetime.datetime` value (date and time fields only; no tzinfo,
which the source never uses for DOS datetimes). -/
structure PyDatetime where
  year : Nat
  month : Nat
  day : Nat
  hour : Nat
  minute : Nat
  second : Nat
  microsecond : Nat
deriving DecidableEq, Repr

/-- Gregorian leap-year rule used by Python's `datetime`. -/
def isLeapYear (y : Nat) : Bool :=
  y % 4 == 0 && (y % 100 != 0 || y % 400 == 0)

/-- Days in a month, as enforced by Python's `datetime` constructor. -/
def daysInMonth (y m : Nat) : Nat :=
  if m = 2 then (if isLeapYear y then 29 else 28)
  else if m = 4 ∨ m = 6 ∨ m = 9 ∨ m = 11 then 30
  else 31

/-- The validity check performed by Python's `datetime.datetime(...)`
constructor; `mkPyDatetime` below returns `none` exactly when the constructor
would raise `ValueError`. -/
def validPyDatetime (dt : PyDatetime) : Bool :=
  1 ≤ dt.year && dt.year ≤ 9999 &&
  1 ≤ dt.month && dt.month ≤ 12 &&
  1 ≤ dt.day && dt.day ≤ daysInMonth dt.year dt.month &&
  dt.hour ≤ 23 && dt.minute ≤ 59 && dt.second ≤ 59 &&
  dt.microsecond ≤ 999999

/-- `datetime.datetime(y, m, d, hh, mm, ss, us)` with its `ValueError`
modelled as `none`. -/
def mkPyDatetime (y m d hh mm ss us : Nat) : Option PyDatetime :=
  let dt : PyDatetime := ⟨y, m, d, hh, mm, ss, us⟩
  if validPyDatetime dt then some dt else none

/-- `DOS_YEAR_MIN` from `fat/directory.py`. -/
def DOS_YEAR_MIN : Nat := 1980

/-- `DOS_YEAR_MAX` from `fat/directory.py`. -/
def DOS_YEAR_MAX : Nat := 2107

/-- `DOS_TIME_TEN_MS_MAX` from `fat/directory.py`. -/
def DOS_TIME_TEN_MS_MAX : Nat := 199

/-- `pack_dos_datetime` from `fat/directory.py`: packs a datetime into
`(date, time, ten_ms)`; raises `ValueError` for years outside
`[DOS_YEAR_MIN, DOS_YEAR_MAX]`. -/
def packDosDatetime (dt : PyDatetime) : Except PyErr (Nat × Nat × Nat) :=
  if dt.year < DOS_YEAR_MIN ∨ dt.year > DOS_YEAR_MAX then
    .error .valueError
  else
    let date := ((dt.year - DOS_YEAR_MIN) <<< 9) ||| (dt.month <<< 5) ||| dt.day
    let time := (dt.hour <<< 11) ||| (dt.minute <<< 5) ||| (dt.second / 2)
    let timeTenMs := (dt.second % 2) * 100 + dt.microsecond / 10000
    .ok (date, time, timeTenMs)

/-- `unpack_dos_datetime` from `fat/directory.py`: unpacks `(date, time,
ten_ms)` into a datetime, or `none` if the packed values are invalid.
Note the source rejects every `time_ten_ms >= DOS_TIME_TEN_MS_MAX`,
i.e. 199 itself is already treated as invalid. -/
def unpackDosDatetime (date time timeTenMs : Nat) : Option PyDatetime :=
  if timeTenMs ≥ DOS_TIME_TEN_MS_MAX then
    none
  else
    let y := ((date &&& 0b1111111000000000) >>> 9) + DOS_YEAR_MIN
    let m := (date &&& 0b0000000111100000) >>> 5
    let d := date &&& 0b0000000000011111
    let hh := (time &&& 0b1111100000000000) >>> 11
    let mm := (time &&& 0b0000011111100000) >>> 5
    let ss := (time &&& 0b0000000000011111) * 2 + timeTenMs / 100
    let us := (timeTenMs % 100) * 10000
    mkPyDatetime y m d hh mm ss us

/-! ## 8.3 directory entries and generalized entries (`fat/directory.py`) -/

/-- `EightDotThreeEntry` from `fat/directory.py`: a 32-byte 8.3 directory
entry.  `name` holds 8 bytes, `extension` 3 bytes; the numeric fields are
little-endian unsigned integers of the annotated widths. -/
structure Edt where
  name : List Nat
  extension : List Nat
  attrs : Nat
  caseInfoVfat : Nat
  createdTimeTenMs : Nat
  createdTime : Nat
  createdDate : Nat
  lastAccessedDate : Nat
  clusterHighFat32 : Nat
  lastModifiedTime : Nat
  lastModifiedDate : Nat
  clusterLow : Nat
  size : Nat
deriving DecidableEq, Repr

/-- Field-width well-formedness enforced by the `ByteStruct` machinery
(`bytestruct.py` validates every field against its annotated width when an
entry is constructed). -/
def Edt.wf (e : Edt) : Prop :=
  e.name.length = 8 ∧ (∀ x ∈ e.name, x < 256) ∧
  e.extension.length = 3 ∧ (∀ x ∈ e.extension, x < 256) ∧
  e.attrs < 256 ∧ e.caseInfoVfat < 256 ∧ e.createdTimeTenMs < 256 ∧
  e.createdTime < 65536 ∧ e.createdDate < 65536 ∧
  e.lastAccessedDate < 65536 ∧ e.clusterHighFat32 < 65536 ∧
  e.lastModifiedTime < 65536 ∧ e.lastModifiedDate < 65536 ∧
  e.clusterLow < 65536 ∧ e.size < 4294967296

instance (e : Edt) : Decidable e.wf := by
  unfold Edt.wf
  infer_instance

/-- `EightDotThreeEntry.cluster` from `fat/directory.py`: the start cluster
read back from the entry, combining the high 16-bit field on FAT32. -/
def Edt.cluster (e : Edt) (fat32 : Bool) : Nat :=
  if fat32 then (e.clusterHighFat32 <<< 16) ||| e.clusterLow
  else e.clusterLow

/-- The `Hint` values from `fat/directory.py` (`END_OF_ENTRIES`, `DOT_ENTRY`,
`DELETED`); `EightDotThreeEntry.hint` returns one of these when the first
name byte matches, else `None`. -/
def Edt.hint (e : Edt) : Option Nat :=
  let b := e.name.headD 0
  if b = 0x00 ∨ b = 0x2E ∨ b = 0xE5 then some b else none

/-- Python `Flag` membership `f in Attributes(a)`: all bits of `f` set. -/
def hasFlag (a f : Nat) : Bool :=
  a &&& f == f

/-- `Attributes.VOLUME_LABEL` bit. -/
def ATTR_VOLUME_LABEL : Nat := 0x08

/-- `Attributes.VFAT` combination (`READ_ONLY|HIDDEN|SYSTEM|VOLUME_LABEL`). -/
def ATTR_VFAT : Nat := 0x0F

/-- `Attributes.SUBDIRECTORY` bit. -/
def ATTR_SUBDIRECTORY : Nat := 0x10

/-- `EightDotThreeEntry.volume_label` from `fat/directory.py`. -/
def Edt.volumeLabel (e : Edt) : Bool :=
  hasFlag e.attrs ATTR_VOLUME_LABEL && !hasFlag e.attrs ATTR_VFAT

/-- `VfatEntry` from `fat/directory.py`: a 32-byte VFAT long-filename entry.
`chars1/2/3` hold 10, 12 and 4 bytes of UTF-16LE filename data. -/
structure Vfat where
  seq : Nat
  chars1 : List Nat
  attrs : Nat
  typ : Nat
  checksum : Nat
  chars2 : List Nat
  cluster : Nat
  chars3 : List Nat
deriving DecidableEq, Inhabited, Repr

/-- Field-width well-formedness for `VfatEntry` (`ByteStruct`). -/
def Vfat.wfFields (v : Vfat) : Prop :=
  v.seq < 256 ∧ v.chars1.length = 10 ∧ (∀ x ∈ v.chars1, x < 256) ∧
  v.attrs < 256 ∧ v.typ < 256 ∧ v.checksum < 256 ∧
  v.chars2.length = 12 ∧ (∀ x ∈ v.chars2, x < 256) ∧
  v.cluster < 65536 ∧ v.chars3.length = 4 ∧ (∀ x ∈ v.chars3, x < 256)

instance (v : Vfat) : Decidable v.wfFields := by
  unfold Vfat.wfFields
  infer_instance

/-- `VfatEntry.number`: the sequence number (`seq & VFAT_ENTRY_NUMBER_MASK`). -/
def Vfat.number (v : Vfat) : Nat :=
  v.seq &&& 0x1F

/-- `VfatEntry.first_lfn_entry`: whether bit 6 (`VFAT_FIRST_LFN_ENTRY`) is
set in the sequence byte. -/
def Vfat.firstLfnEntry (v : Vfat) : Bool :=
  v.seq &&& 0x40 != 0

/-- `VfatEntry.validate` from `fat/directory.py`, run by `ByteStruct` on
every construction (`__post_init__`): VFAT attribute bits set, sequence
number in `(1, 20)`, cluster zero. -/
def Vfat.validate (v : Vfat) : Bool :=
  hasFlag v.attrs ATTR_VFAT && 1 ≤ v.number && v.number ≤ 20 && v.cluster == 0

/-- `_dos_filename_checksum` from `fat/directory.py`: the 8-bit rotating
checksum of the packed DOS name and extension stored in VFAT entries. -/
def dosFilenameChecksum (nameBytes extBytes : List Nat) : Nat :=
  (nameBytes ++ extBytes).foldl
    (fun c byte => (((c &&& 1) <<< 7) + (c >>> 1) + byte) % 256) 0

/-- Generalized directory `Entry` from `fat/directory.py`: one 8.3 entry
plus up to 20 VFAT entries in physical order, together with the `vfat` and
`fat_32` options it was constructed with. -/
structure Entry where
  eightDotThree : Edt
  vfatEntries : List Vfat
  vfat : Bool
  fat32 : Bool
deriving DecidableEq, Repr

/-- `Entry.__init__` from `fat/directory.py`: the construction-time checks,
in source order.  `ValueError` and `ValidationError` are distinguished
because `iter_entries` catches only the latter. -/
def entryInit (edt : Edt) (vfats : List Vfat) (vfat fat32 : Bool) :
    Except PyErr Entry :=
  if vfats ≠ [] ∧ vfat = false then .error .valueError
  else if edt.hint ≠ none then .error .valueError
  else if edt.volumeLabel then .error .valueError
  else if hasFlag edt.attrs ATTR_VFAT then .error .valueError
  else if vfats.length > 20 then .error .validationError
  else if vfats ≠ [] ∧ (vfats.headD default).firstLfnEntry = false then
    .error .validationError
  else if vfats.any
      (fun v => v.checksum ≠ dosFilenameChecksum edt.name edt.extension) then
    .error .validationError
  else .ok ⟨edt, vfats, vfat, fat32⟩

/-- `Entry.__bytes__` is the concatenation of the VFAT entries' bytes
followed by the 8.3 entry's bytes; see `entryRecords` below for the same
data split into 32-byte records. -/
def Entry.totalEntries (e : Entry) : Nat :=
  1 + e.vfatEntries.length

/-- The cluster-field packing step of `create_entry`
(`fat/directory.py`, lines 882-888): computes the `(cluster_low,
cluster_high)` pair stored into the 8.3 entry, raising `ValueError` when the
high bits are used on a non-FAT32 file system.  Note the source computes
`cluster_low = cluster & 0xFF`. -/
def createEntryClusterFields (cluster : Nat) (fat32 : Bool) :
    Except PyErr (Nat × Nat) :=
  let clusterLow := cluster &&& 0xFF
  let clusterHigh := cluster >>> 16
  if fat32 = false ∧ clusterHigh ≠ 0 then .error .valueError
  else .ok (clusterLow, clusterHigh)

/-- `updated_entry` from `fat/directory.py`: returns a copy of `entry` with
the given fields replaced.  `dataclasses.replace` re-runs the `ByteStruct`
field validation, and the new `Entry` is rebuilt through `Entry.__init__`. -/
def updatedEntry (entry : Entry) (newCluster newSize : Option Nat)
    (lastAccessed lastModified : Option PyDatetime) (vfat fat32 : Bool) :
    Except PyErr Entry :=
  if newCluster = none ∧ newSize = none ∧ lastAccessed = none ∧
      lastModified = none then
    .ok entry
  else do
    let e0 := entry.eightDotThree
    let e1 ← match newCluster with
      | none => pure e0
      | some c =>
        let clusterLow := c &&& 0xFF
        let clusterHigh := c >>> 16
        if fat32 = false ∧ clusterHigh ≠ 0 then .error .valueError
        else pure { e0 with clusterLow := clusterLow,
                            clusterHighFat32 := clusterHigh }
    let e2 := match newSize with
      | none => e1
      | some s => { e1 with size := s }
    let e3 ← match lastAccessed with
      | none => pure e2
      | some dt => do
        let (date, _, _) ← packDosDatetime dt
        pure { e2 with lastAccessedDate := date }
    let e4 ← match lastModified with
      | none => pure e3
      | some dt => do
        let (date, time, _) ← packDosDatetime dt
        pure { e3 with lastModifiedDate := date, lastModifiedTime := time }
    if e4.wf then entryInit e4 entry.vfatEntries vfat fat32
    else .error .valueError

/-- A concrete, valid 8.3 entry (`name = "FILENAME"`, `ext = "EXT"`) used as
the base entry of concrete evaluations. -/
def edtExample : Edt :=
  { name := [0x46, 0x49, 0x4C, 0x45, 0x4E, 0x41, 0x4D, 0x45]
    extension := [0x45, 0x58, 0x54]
    attrs := 0x20
    caseInfoVfat := 0
    createdTimeTenMs := 0
    createdTime := 0
    createdDate := 33
    lastAccessedDate := 33
    clusterHighFat32 := 0
    lastModifiedTime := 0
    lastModifiedDate := 33
    clusterLow := 0
    size := 0 }

/-- The `Entry` wrapping `edtExample` with no VFAT entries. -/
def entryExample : Entry := ⟨edtExample, [], false, false⟩

/-- C1: create_entry/updated_entry store the low 16 bits of the cluster and
reading the entry's cluster yields exactly the input cluster.  FALSE in the
code: both functions compute `cluster_low = cluster & 0xFF` (8 bits, not
16), so for `cluster = 256` the 16-bit low field stores 0 and the start
cluster reads back as 0 on FAT12/FAT16/FAT32 alike.  This theorem evaluates
both code paths at the failing input `cluster = 256`. -/
theorem c1_cluster_low_byte_truncated :
    createEntryClusterFields 256 true = .ok (0, 0) ∧
    createEntryClusterFields 256 false = .ok (0, 0) ∧
    (updatedEntry entryExample (some 256) none none none false false).map
      (fun e => e.eightDotThree.cluster false) = .ok 0 ∧
    (256 : Nat) ≠ 0 := by
  decide

/-- C6: round trip of DOS datetimes.  FALSE in the code at the boundary: the
source rejects `time_ten_ms >= DOS_TIME_TEN_MS_MAX` on unpacking, so the
legal ten-ms value 199 (odd second, 990 000 microseconds) packs fine but
unpacks to `None`.  This theorem evaluates the code at the failing input
`datetime(1980, 1, 1, 0, 0, 1, 990000)`. -/
theorem c6_ten_ms_199_rejected :
    packDosDatetime ⟨1980, 1, 1, 0, 0, 1, 990000⟩ = .ok (33, 0, 199) ∧
    unpackDosDatetime 33 0 199 = none ∧
    validPyDatetime ⟨1980, 1, 1, 0, 0, 1, 990000⟩ = true := by
  decide

/-! ## Partition-table probing (`disk.py`) -/

/-- Outcome classification of a partition-table parser as observed by
`Disk.read_table`: a `validation` failure (`ValidationError`) is swallowed
during probing; any `other` exception propagates. -/
inductive ProbeErr where
  | validation
  | other
deriving DecidableEq, Repr

/-- `Disk.read_table` from `disk.py` (lines 222-241).  The two codec calls
`gpt.Table.from_disk(self)` and `mbr.Table.from_disk(self)` are represented
by their outcomes `g` and `m`; the module `diskfs/gpt.py` imported by
`disk.py` is not part of the source tree, so the GPT parser itself is
modelled from the spec as an abstract outcome: it either returns a table or
raises, and `read_table` catches exactly `ValidationError`.  The result is
the new value of `self._table` (`none` = unpartitioned), or `Except.error`
when the exception propagates out of `read_table`. -/
def readTable {α β : Type} (g : Except ProbeErr α) (m : Except ProbeErr β) :
    Except ProbeErr (Option (α ⊕ β)) :=
  match g with
  | .ok t => .ok (some (.inl t))
  | .error .validation =>
    match m with
    | .ok t => .ok (some (.inr t))
    | .error .validation => .ok none
    | .error .other => .error .other
  | .error .other => .error .other

/-- C2: `read_table` tries the GPT codec first; a validation failure is
swallowed and the MBR codec is tried; if MBR validation also fails the call
completes without raising and the disk is unpartitioned (`table = None`);
the first scheme that validates is stored. -/
theorem c2_read_table_probing {α β : Type} (g : Except ProbeErr α)
    (m : Except ProbeErr β) :
    (∀ t, g = .ok t → readTable g m = .ok (some (.inl t))) ∧
    (g = .error .validation →
      ∀ t, m = .ok t → readTable g m = .ok (some (.inr t))) ∧
    (g = .error .validation → m = .error .validation →
      readTable g m = .ok none) := by
  refine ⟨fun t hg => ?_, fun hg t hm => ?_, fun hg hm => ?_⟩ <;>
    subst hg <;> first
      | rfl
      | (subst hm; rfl)

/-- Witness for C2 at concrete probe outcomes: the GPT parser fails
validation and the MBR parser succeeds, so the MBR table is stored. -/
theorem c2_read_table_probing_witness :
    readTable (α := Nat) (β := Nat) (.error .validation) (.ok 7) =
      .ok (some (.inr 7)) :=
  (c2_read_table_probing (.error .validation) (.ok 7)).2.1 rfl 7 rfl

/-! ## GPT protective-MBR detection (`table/gpt.py`) -/

/-- An MBR partition entry as parsed by `table/mbr.py` (only the fields the
protective-MBR decision and its specification look at). -/
structure MbrPartEntry where
  startLba : Nat
  lengthLba : Nat
  type : Nat
  bootable : Bool
deriving DecidableEq, Inhabited, Repr

/-- An MBR partition table as parsed by `table/mbr.py`
(empty entries already dropped). -/
structure MbrTable where
  partitions : List MbrPartEntry
deriving DecidableEq, Repr

/-- `mbr.PartitionType.GPT_PROTECTIVE` (`0xEE`). -/
def GPT_PROTECTIVE : Nat := 0xEE

/-- The protective-MBR decision of `gpt.Table.from_disk`
(`table/gpt.py`, lines 589-595): the parsed MBR is kept as `custom_mbr`
unless it has exactly one partition whose type is `0xEE`; a standard
protective MBR yields `custom_mbr = None`.  Note the source checks neither
the start LBA nor the length of the partition. -/
def customMbrOf (m : MbrTable) : Option MbrTable :=
  if m.partitions.length = 1 ∧
      (m.partitions.headD default).type = GPT_PROTECTIVE then
    none
  else some m

/-- Modelled from the spec (refinement reference, not source code): the MBR
shape the specification calls the standard protective MBR — exactly one
partition of type `0xEE` starting at LBA 1 with length
`min(disk_sectors - 1, 0xFFFFFFFF)`. -/
def specProtectiveMbr (m : MbrTable) (diskSectors : Nat) : Bool :=
  match m.partitions with
  | [p] =>
    p.type == GPT_PROTECTIVE && p.startLba == 1 &&
      p.lengthLba == min (diskSectors - 1) 0xFFFFFFFF
  | _ => false

/-- An MBR with a single `0xEE` partition that does not span the disk
(starts at LBA 5, length 10 on a 100-sector disk). -/
def mbrHybridExample : MbrTable :=
  ⟨[⟨5, 10, 0xEE, false⟩]⟩

/-- C7 counterexample: the claim says an MBR is treated as protective
(`custom_mbr = None`) iff it has exactly one `0xEE` partition starting at
LBA 1 with length `min(disk_sectors - 1, 0xFFFFFFFF)`.  The code only
checks the entry count and type: this single-partition `0xEE` MBR starting
at LBA 5 with length 10 is not of the spec's protective shape, yet
`from_disk` leaves `custom_mbr` unset. -/
theorem c7_counter_protective_shape_not_checked :
    customMbrOf mbrHybridExample = none ∧
    specProtectiveMbr mbrHybridExample 100 = false := by
  decide

/-- C7 amended: the MBR read from LBA 0 is treated as the standard
protective MBR (`custom_mbr = None`) if and only if it contains exactly one
partition entry and that entry's type is `0xEE`; its start LBA and length
are not inspected. -/
theorem c7_amended_protective_iff_single_ee (m : MbrTable) :
    customMbrOf m = none ↔
      m.partitions.length = 1 ∧
        ∀ p ∈ m.partitions, p.type = GPT_PROTECTIVE := by
  unfold customMbrOf
  match hm : m.partitions with
  | [] => simp [hm]
  | [p] =>
    simp only [hm, List.length_singleton, List.mem_singleton, List.headD]
    constructor
    · intro h
      by_cases ht : p.type = GPT_PROTECTIVE
      · exact ⟨trivial, fun q hq => hq ▸ ht⟩
      · simp [ht] at h
    · intro ⟨_, hall⟩
      simp [hall p rfl]
  | p :: q :: r =>
    simp [hm]

/-- Witness for C7 amended at the standard protective MBR of a 100-sector
disk (one `0xEE` partition, LBA 1, length 99). -/
theorem c7_amended_witness :
    customMbrOf ⟨[⟨1, 99, 0xEE, false⟩]⟩ = none :=
  (c7_amended_protective_iff_single_ee ⟨[⟨1, 99, 0xEE, false⟩]⟩).mpr
    ⟨by decide, by decide⟩

/-! ## Free-cluster allocation (`fat/fat.py`, `Fat.next_free_clusters`) -/

/-- The loop body of `Fat.next_free_clusters` (`fat/fat.py`, lines 264-277)
run over the remaining `(key, value)` pairs of `enumerate(iter(self))` with
`found` free clusters already yielded.  The result is the list of yielded
cluster numbers together with `true` when the generator ends by raising
`FileSystemLimit("Not enough free clusters available")` and `false` when it
returns normally.  Note `iter(self)` starts at key 0 (Python's sequence
iteration protocol over `__getitem__`), and the checks run in source order:
`found == count` return, `key >= avoid_data` break, `value == CLUSTER_EMPTY`
yield. -/
def nfcGo (avoid count : Nat) : List (Nat × Nat) → Nat → List Nat × Bool
  | [], _ => ([], true)
  | (key, value) :: rest, found =>
    if found = count then ([], false)
    else if key ≥ avoid then ([], true)
    else if value = 0 then
      let (ys, r) := nfcGo avoid count rest (found + 1)
      (key :: ys, r)
    else nfcGo avoid count rest found

/-- `Fat.next_free_clusters(count)` from `fat/fat.py`, applied to the FAT
abstracted as the list of its decoded entry values (index = cluster
number). -/
def nextFreeClusters (ft : FatKind) (entries : List Nat) (count : Nat) :
    List Nat × Bool :=
  nfcGo (clusterAvoidData ft) count entries.enum 0

/-- The ascending list of indices `< avoid` whose FAT entry value is 0,
starting at index `i` for list `l` (specification helper for C5). -/
def emptyIndicesFrom (avoid : Nat) : List Nat → Nat → List Nat
  | [], _ => []
  | v :: rest, i =>
    if i < avoid ∧ v = 0 then i :: emptyIndicesFrom avoid rest (i + 1)
    else emptyIndicesFrom avoid rest (i + 1)

/-- The ascending list of empty-entry indices below `avoid` of a FAT. -/
def emptyIndices (ft : FatKind) (entries : List Nat) : List Nat :=
  emptyIndicesFrom (clusterAvoidData ft) entries 0

/-- C5 counterexample: the claim says `next_free_clusters(count)` raises
`FilesystemLimit` iff fewer than `count` empty entries exist below the
avoid-data sentinel.  On the FAT16 table `[0xFFF8, 0xFFFF, 0, 0]` exactly 2
empty entries exist (clusters 2 and 3), yet `next_free_clusters(2)` yields
both and then raises anyway, because the generator only returns when a
further iteration follows the last yield. -/
theorem c5_counter_raises_despite_enough :
    nextFreeClusters .fat16 [0xFFF8, 0xFFFF, 0, 0] 2 = ([2, 3], true) ∧
    emptyIndices .fat16 [0xFFF8, 0xFFFF, 0, 0] = [2, 3] := by
  decide

/-- Indices at or beyond `avoid` contribute no empty-entry indices. -/
theorem emptyIndicesFrom_of_avoid_le (avoid : Nat) (l : List Nat) (i : Nat)
    (h : avoid ≤ i) : emptyIndicesFrom avoid l i = [] := by
  induction l generalizing i with
  | nil => rfl
  | cons v rest ih =>
    have : ¬(i < avoid ∧ v = 0) := fun hc => absurd hc.1 (Nat.not_lt.mpr h)
    simp only [emptyIndicesFrom, if_neg this]
    exact ih (i + 1) (Nat.le_succ_of_le h)


/-- Unfolding equation for `nfcGo` on a cons cell. -/
theorem nfcGo_cons (avoid count key value : Nat) (rest : List (Nat × Nat))
    (found : Nat) :
    nfcGo avoid count ((key, value) :: rest) found =
      if found = count then ([], false)
      else if key ≥ avoid then ([], true)
      else if value = 0 then
        (key :: (nfcGo avoid count rest (found + 1)).1,
          (nfcGo avoid count rest (found + 1)).2)
      else nfcGo avoid count rest found := rfl

/-- Unfolding equation for `emptyIndicesFrom` on a cons cell. -/
theorem emptyIndicesFrom_cons (avoid v : Nat) (rest : List Nat) (i : Nat) :
    emptyIndicesFrom avoid (v :: rest) i =
      if i < avoid ∧ v = 0 then i :: emptyIndicesFrom avoid rest (i + 1)
      else emptyIndicesFrom avoid rest (i + 1) := rfl

/-- `List.enumFrom` on a cons cell. -/
theorem enumFrom_cons_eq (i v : Nat) (rest : List Nat) :
    List.enumFrom i (v :: rest) = (i, v) :: List.enumFrom (i + 1) rest := rfl

/-- Characterization of the `next_free_clusters` loop over an arbitrary
enumeration suffix: the yielded clusters are the first `count - found`
empty-entry indices, and the generator returns normally iff enough empty
entries exist *and* the iteration visits at least one further key after the
last yield. -/
theorem nfcGo_spec (avoid count : Nat) (l : List Nat) (i found : Nat)
    (h : found ≤ count) :
    (nfcGo avoid count (l.enumFrom i) found).1 =
      (emptyIndicesFrom avoid l i).take (count - found) ∧
    ((nfcGo avoid count (l.enumFrom i) found).2 = false ↔
      (count - found = 0 ∧ 0 < l.length) ∨
      (0 < count - found ∧
        count - found ≤ (emptyIndicesFrom avoid l i).length ∧
        (emptyIndicesFrom avoid l i).getD (count - found - 1) 0 + 1 <
          i + l.length)) := by
  induction l generalizing i found with
  | nil =>
    have h1 : nfcGo avoid count (List.enumFrom i []) found = ([], true) := rfl
    have h2 : emptyIndicesFrom avoid [] i = [] := rfl
    rw [h1, h2, List.take_nil]
    refine ⟨rfl, ?_⟩
    constructor
    · intro hc; exact absurd hc (by decide)
    · rintro (⟨_, hl⟩ | ⟨hp, hle, _⟩)
      · exact absurd hl (by decide)
      · rw [List.length_nil] at hle
        omega
  | cons v rest ih =>
    rw [enumFrom_cons_eq, nfcGo_cons]
    by_cases hfc : found = count
    · rw [if_pos hfc]
      have hz : count - found = 0 := by omega
      rw [hz]
      refine ⟨rfl, ?_⟩
      constructor
      · intro _
        exact Or.inl ⟨by trivial, by simp⟩
      · intro _; rfl
    · rw [if_neg hfc]
      have hlt : found < count := Nat.lt_of_le_of_ne h hfc
      have hpos : 0 < count - found := Nat.sub_pos_of_lt hlt
      by_cases hav : i ≥ avoid
      · rw [if_pos hav]
        have he : emptyIndicesFrom avoid (v :: rest) i = [] :=
          emptyIndicesFrom_of_avoid_le avoid _ i hav
        rw [he]
        refine ⟨by rw [List.take_nil], ?_⟩
        constructor
        · intro hc; exact absurd hc (by decide)
        · rintro (⟨hz, _⟩ | ⟨_, hle, _⟩)
          · omega
          · have : ([] : List Nat).length = 0 := rfl
            omega
      · rw [if_neg hav]
        have hav' : i < avoid := Nat.lt_of_not_le hav
        have hrestlen : (v :: rest).length = rest.length + 1 := rfl
        by_cases hv : v = 0
        · rw [if_pos hv]
          have ihm := ih (i + 1) (found + 1) hlt
          have he : emptyIndicesFrom avoid (v :: rest) i =
              i :: emptyIndicesFrom avoid rest (i + 1) := by
            rw [emptyIndicesFrom_cons, if_pos ⟨hav', hv⟩]
          rw [he]
          set E := emptyIndicesFrom avoid rest (i + 1) with hE
          have hsub : count - found = (count - (found + 1)) + 1 := by omega
          refine ⟨?_, ?_⟩
          · rw [hsub, List.take_succ_cons, ihm.1]
          · rw [ihm.2, hsub]
            set c' := count - (found + 1) with hc'
            have hlen : (i :: E).length = E.length + 1 := rfl
            rcases Nat.eq_zero_or_pos c' with hz | hposc
            · rw [hz]
              have hg : (i :: E).getD 0 0 = i := rfl
              simp only [hz, Nat.zero_add, Nat.sub_self, hg, hlen,
                hrestlen]
              constructor
              · rintro (⟨_, hl⟩ | ⟨hp, _, _⟩)
                · exact Or.inr ⟨Nat.one_pos, by omega, by omega⟩
                · omega
              · rintro (⟨hc1, _⟩ | ⟨_, _, hb⟩)
                · omega
                · exact Or.inl ⟨by trivial, by omega⟩
            · have hg : (i :: E).getD (c' + 1 - 1) 0 = E.getD (c' - 1) 0 := by
                have h1 : c' + 1 - 1 = (c' - 1) + 1 := by omega
                rw [h1, List.getD_cons_succ]
              rw [hg, hlen, hrestlen]
              constructor
              · rintro (⟨hz2, _⟩ | ⟨_, hle, hb⟩)
                · omega
                · exact Or.inr ⟨by omega, by omega, by omega⟩
              · rintro (⟨hz2, _⟩ | ⟨_, hle, hb⟩)
                · omega
                · exact Or.inr ⟨by omega, by omega, by omega⟩
        · rw [if_neg hv]
          have ihm := ih (i + 1) found h
          have he : emptyIndicesFrom avoid (v :: rest) i =
              emptyIndicesFrom avoid rest (i + 1) := by
            rw [emptyIndicesFrom_cons, if_neg (fun hc => hv hc.2)]
          rw [he]
          refine ⟨ihm.1, ?_⟩
          rw [ihm.2, hrestlen]
          constructor
          · rintro (⟨hz, hl⟩ | ⟨hp, hle, hb⟩)
            · omega
            · exact Or.inr ⟨hp, hle, by omega⟩
          · rintro (⟨hz, hl⟩ | ⟨hp, hle, hb⟩)
            · omega
            · exact Or.inr ⟨hp, hle, by omega⟩

/-- C5 amended: `next_free_clusters(count)` (for `count ≥ 1`) yields the
first `count` indices with empty FAT entries scanning from cluster 0 upward
(entry 0 can never be empty because its low byte is the media descriptor,
but an empty entry 1 would be yielded), stopping at the avoid-data
sentinel; it raises `FilesystemLimit` iff fewer than `count` empty entries
exist below the sentinel, or the `count`-th empty entry is the very last
FAT entry (the generator only returns on the following iteration). -/
theorem c5_amended_next_free_clusters (ft : FatKind) (entries : List Nat)
    (count : Nat) (hc : 1 ≤ count) :
    (nextFreeClusters ft entries count).1 =
      (emptyIndices ft entries).take count ∧
    ((nextFreeClusters ft entries count).2 = false ↔
      count ≤ (emptyIndices ft entries).length ∧
      (emptyIndices ft entries).getD (count - 1) 0 + 1 < entries.length) := by
  have h := nfcGo_spec (clusterAvoidData ft) count entries 0 0 (Nat.zero_le _)
  have henum : entries.enum = entries.enumFrom 0 := rfl
  unfold nextFreeClusters emptyIndices
  rw [henum]
  rw [Nat.sub_zero] at h
  refine ⟨h.1, ?_⟩
  rw [h.2]
  constructor
  · rintro (⟨hz, _⟩ | ⟨_, hle, hb⟩)
    · omega
    · exact ⟨hle, by omega⟩
  · rintro ⟨hle, hb⟩
    exact Or.inr ⟨by omega, hle, by omega⟩

/-- Witness for C5 amended on the FAT12 table `[0xFF8, 0xFFFF, 0, 0xFFF, 0]`
with `count = 1`: cluster 2 is yielded and the generator returns without
raising. -/
theorem c5_amended_witness :
    1 ≤ 1 ∧
    ((nextFreeClusters .fat12 [0xFF8, 0xFFFF, 0, 0xFFF, 0] 1).1 =
        (emptyIndices .fat12 [0xFF8, 0xFFFF, 0, 0xFFF, 0]).take 1 ∧
      ((nextFreeClusters .fat12 [0xFF8, 0xFFFF, 0, 0xFFF, 0] 1).2 = false ↔
        1 ≤ (emptyIndices .fat12 [0xFF8, 0xFFFF, 0, 0xFFF, 0]).length ∧
        (emptyIndices .fat12 [0xFF8, 0xFFFF, 0, 0xFFF, 0]).getD 0 0 + 1 <
          [0xFF8, 0xFFFF, 0, 0xFFF, (0 : Nat)].length)) :=
  ⟨Nat.le_refl 1,
    c5_amended_next_free_clusters .fat12 [0xFF8, 0xFFFF, 0, 0xFFF, 0] 1
      (Nat.le_refl 1)⟩

/-! ## Cluster chains (`fat/fat.py`, `Fat.get_chain`) -/

/-- `Fat.get_chain(start_cluster)` from `fat/fat.py` (lines 252-262), fully
consumed, over the FAT abstracted as the list `f` of its decoded entry
values.  The loop `while CLUSTER_RESERVED < cluster <= bad_cluster` has no
other termination device, so the embedding is fuel-indexed: `none` means
the loop has not finished within `fuel` iterations (on a cyclic FAT it
never finishes).  `some (.error _)` models the `ValueError` raised by
`_check_cluster_data_read` for clusters outside `(2, len(fat) - 1)`;
`some (.ok l)` is the list of yielded clusters of a normally-terminated
iteration. -/
def getChainFuel (ft : FatKind) (f : List Nat) :
    Nat → Nat → Option (Except PyErr (List Nat))
  | 0, _ => none
  | fuel + 1, c =>
    if 1 < c ∧ c ≤ badCluster ft then
      if 2 ≤ c ∧ c ≤ f.length - 1 then
        (getChainFuel ft f fuel (f.getD c 0)).map
          (fun r => r.map (fun l => c :: l))
      else some (.error .valueError)
    else some (.ok [])

/-- Unfolding equation for `getChainFuel` at positive fuel. -/
theorem getChainFuel_succ (ft : FatKind) (f : List Nat) (fuel c : Nat) :
    getChainFuel ft f (fuel + 1) c =
      if 1 < c ∧ c ≤ badCluster ft then
        if 2 ≤ c ∧ c ≤ f.length - 1 then
          (getChainFuel ft f fuel (f.getD c 0)).map
            (fun r => r.map (fun l => c :: l))
        else some (.error .valueError)
      else some (.ok []) := rfl

/-- C8 counterexample: the claim says the iteration of `get_chain` always
terminates and the FAT value of the last yielded cluster is an end-of-chain
sentinel.  On the FAT16 table `[0xFFF8, 0xFFFF, 0, 0]`, `get_chain(2)`
terminates after yielding `[2]` but the last cluster's FAT value is 0
(empty), not the EOC sentinel; and on the cyclic table
`[0xFFF8, 0xFFFF, 2, 0]` the loop has not terminated after 100 iterations
(cluster 2 links to itself, so it never terminates at all). -/
theorem c8_counter_last_value_not_eoc :
    getChainFuel .fat16 [0xFFF8, 0xFFFF, 0, 0] 5 2 = some (.ok [2]) ∧
    [0xFFF8, 0xFFFF, 0, 0].getD 2 0 ≠ clusterEoc .fat16 ∧
    getChainFuel .fat16 [0xFFF8, 0xFFFF, 2, 0] 100 2 = none := by
  decide

/-- Two successful runs of `getChainFuel` from the same cluster agree,
whatever their fuel. -/
theorem getChainFuel_det (ft : FatKind) (f : List Nat) :
    ∀ n m c r r', getChainFuel ft f n c = some r →
      getChainFuel ft f m c = some r' → r = r' := by
  intro n
  induction n with
  | zero =>
    intro m c r r' h
    exact absurd h (by simp [getChainFuel])
  | succ n ih =>
    intro m c r r' h h'
    match m with
    | 0 => exact absurd h' (by simp [getChainFuel])
    | m + 1 =>
      rw [getChainFuel_succ] at h h'
      by_cases h1 : 1 < c ∧ c ≤ badCluster ft
      · rw [if_pos h1] at h h'
        by_cases h2 : 2 ≤ c ∧ c ≤ f.length - 1
        · rw [if_pos h2] at h h'
          rcases Option.map_eq_some'.mp h with ⟨rn, hn, hrn⟩
          rcases Option.map_eq_some'.mp h' with ⟨rm, hm, hrm⟩
          have := ih m (f.getD c 0) rn rm hn hm
          subst this
          rw [← hrn, ← hrm]
        · rw [if_neg h2] at h h'
          rw [← Option.some_inj.mp h, ← Option.some_inj.mp h']
      · rw [if_neg h1] at h h'
        rw [← Option.some_inj.mp h, ← Option.some_inj.mp h']

/-- A successful empty run means the loop condition failed at entry. -/
theorem getChainFuel_ok_nil (ft : FatKind) (f : List Nat) :
    ∀ n c, getChainFuel ft f n c = some (.ok []) →
      ¬(1 < c ∧ c ≤ badCluster ft) := by
  intro n c h hc
  match n with
  | 0 => exact absurd h (by simp [getChainFuel])
  | n + 1 =>
    rw [getChainFuel_succ, if_pos hc] at h
    by_cases h2 : 2 ≤ c ∧ c ≤ f.length - 1
    · rw [if_pos h2] at h
      rcases Option.map_eq_some'.mp h with ⟨rn, _, hrn⟩
      cases rn with
      | error e =>
        simp only [Except.map] at hrn
        exact Except.noConfusion hrn
      | ok l =>
        simp only [Except.map] at hrn
        simp at hrn
    · rw [if_neg h2] at h
      exact absurd (Option.some_inj.mp h) (by simp)

/-- Every position of a successful chain starts a successful chain of its
own: the suffix from position `i` is the chain of the `i`-th yielded
cluster. -/
theorem getChainFuel_suffix (ft : FatKind) (f : List Nat) :
    ∀ n c l, getChainFuel ft f n c = some (.ok l) →
      ∀ i, i < l.length →
        ∃ m, getChainFuel ft f m (l.getD i 0) = some (.ok (l.drop i)) := by
  intro n
  induction n with
  | zero =>
    intro c l h
    exact absurd h (by simp [getChainFuel])
  | succ n ih =>
    intro c l h i hi
    rw [getChainFuel_succ] at h
    by_cases h1 : 1 < c ∧ c ≤ badCluster ft
    · rw [if_pos h1] at h
      by_cases h2 : 2 ≤ c ∧ c ≤ f.length - 1
      · rw [if_pos h2] at h
        rcases Option.map_eq_some'.mp h with ⟨rn, hn, hrn⟩
        cases rn with
        | error e =>
          simp only [Except.map] at hrn
          exact Except.noConfusion hrn
        | ok l2 =>
          simp only [Except.map] at hrn
          cases hrn
          match i with
          | 0 =>
            simp only [List.getD_cons_zero, List.drop_zero]
            refine ⟨n + 1, ?_⟩
            rw [getChainFuel_succ, if_pos h1, if_pos h2, hn]
            simp [Except.map]
          | i + 1 =>
            have hi' : i < l2.length := by
              simp only [List.length_cons] at hi
              omega
            simp only [List.getD_cons_succ, List.drop_succ_cons]
            exact ih (f.getD c 0) l2 hn i hi'
      · rw [if_neg h2] at h
        exact absurd (Option.some_inj.mp h) (by simp)
    · rw [if_neg h1] at h
      have h3 : Except.ok (ε := PyErr) ([] : List Nat) = Except.ok l :=
        Option.some_inj.mp h
      cases h3
      simp at hi

/-- Every cluster yielded by a successful chain run passed
`_check_cluster_data_read`: it lies in `[2, len(fat) - 1]`. -/
theorem getChainFuel_mem (ft : FatKind) (f : List Nat) :
    ∀ n c l, getChainFuel ft f n c = some (.ok l) →
      ∀ x ∈ l, 2 ≤ x ∧ x ≤ f.length - 1 := by
  intro n
  induction n with
  | zero =>
    intro c l h
    exact absurd h (by simp [getChainFuel])
  | succ n ih =>
    intro c l h x hx
    rw [getChainFuel_succ] at h
    by_cases h1 : 1 < c ∧ c ≤ badCluster ft
    · rw [if_pos h1] at h
      by_cases h2 : 2 ≤ c ∧ c ≤ f.length - 1
      · rw [if_pos h2] at h
        rcases Option.map_eq_some'.mp h with ⟨rn, hn, hrn⟩
        cases rn with
        | error e =>
          simp only [Except.map] at hrn
          exact Except.noConfusion hrn
        | ok l2 =>
          simp only [Except.map] at hrn
          cases hrn
          rcases List.mem_cons.mp hx with hx | hx
          · exact hx ▸ h2
          · exact ih (f.getD c 0) l2 hn x hx
      · rw [if_neg h2] at h
        exact absurd (Option.some_inj.mp h) (by simp)
    · rw [if_neg h1] at h
      have h3 : Except.ok (ε := PyErr) ([] : List Nat) = Except.ok l :=
        Option.some_inj.mp h
      cases h3
      simp at hx

/-- The FAT value of the last cluster of a successful chain run fails the
loop condition: it is not a link into `(CLUSTER_RESERVED, BAD_CLUSTER]`. -/
theorem getChainFuel_last (ft : FatKind) (f : List Nat) :
    ∀ n c l, getChainFuel ft f n c = some (.ok l) →
      ∀ last, l.getLast? = some last →
        ¬(1 < f.getD last 0 ∧ f.getD last 0 ≤ badCluster ft) := by
  intro n
  induction n with
  | zero =>
    intro c l h
    exact absurd h (by simp [getChainFuel])
  | succ n ih =>
    intro c l h last hlast
    rw [getChainFuel_succ] at h
    by_cases h1 : 1 < c ∧ c ≤ badCluster ft
    · rw [if_pos h1] at h
      by_cases h2 : 2 ≤ c ∧ c ≤ f.length - 1
      · rw [if_pos h2] at h
        rcases Option.map_eq_some'.mp h with ⟨rn, hn, hrn⟩
        cases rn with
        | error e =>
          simp only [Except.map] at hrn
          exact Except.noConfusion hrn
        | ok l2 =>
          simp only [Except.map] at hrn
          cases hrn
          match l2, hn, hlast with
          | [], hn, hlast =>
            have hc2 := getChainFuel_ok_nil ft f n (f.getD c 0) hn
            have hlc : c = last := by
              simpa [List.getLast?_singleton] using hlast
            rw [← hlc]
            exact hc2
          | y :: l3, hn, hlast =>
            rw [List.getLast?_cons_cons] at hlast
            exact ih (f.getD c 0) (y :: l3) hn last hlast
      · rw [if_neg h2] at h
        exact absurd (Option.some_inj.mp h) (by simp)
    · rw [if_neg h1] at h
      have h3 : Except.ok (ε := PyErr) ([] : List Nat) = Except.ok l :=
        Option.some_inj.mp h
      cases h3
      simp at hlast

/-- A successful chain run yields no cluster twice: a repeat would make the
deterministic iteration periodic, contradicting termination. -/
theorem getChainFuel_nodup (ft : FatKind) (f : List Nat) (n c : Nat)
    (l : List Nat) (h : getChainFuel ft f n c = some (.ok l)) : l.Nodup := by
  rw [List.nodup_iff_injective_get]
  intro ⟨i, hi⟩ ⟨j, hj⟩ hij
  rcases getChainFuel_suffix ft f n c l h i hi with ⟨mi, hmi⟩
  rcases getChainFuel_suffix ft f n c l h j hj with ⟨mj, hmj⟩
  have hgd : l.getD i 0 = l.getD j 0 := by
    rw [List.getD_eq_getElem l 0 hi, List.getD_eq_getElem l 0 hj]
    simpa using hij
  rw [hgd] at hmi
  have hdrop : Except.ok (ε := PyErr) (l.drop i) = .ok (l.drop j) :=
    getChainFuel_det ft f mi mj (l.getD j 0) _ _ hmi hmj
  have hdd : l.drop i = l.drop j := by injection hdrop
  have hlen : (l.drop i).length = (l.drop j).length := congrArg List.length hdd
  simp only [List.length_drop] at hlen
  have : i = j := by omega
  exact Fin.ext this

/-- C8 amended: whenever the iteration of `get_chain(start)` terminates
normally (within any fuel bound), every yielded cluster lies in
`[2, total_clusters + 1]` and no cluster is yielded twice; the FAT value of
the last yielded cluster is outside the link range
`(CLUSTER_RESERVED, BAD_CLUSTER]` — an empty, reserved or
end-range value, not necessarily the EOC sentinel.  Termination itself is
not guaranteed: a cyclic FAT iterates forever. -/
theorem c8_amended_get_chain (ft : FatKind) (f : List Nat) (fuel start : Nat)
    (l : List Nat) (h : getChainFuel ft f fuel start = some (.ok l)) :
    (∀ x ∈ l, 2 ≤ x ∧ x ≤ f.length - 1) ∧ l.Nodup ∧
    (∀ last, l.getLast? = some last →
      ¬(1 < f.getD last 0 ∧ f.getD last 0 ≤ badCluster ft)) :=
  ⟨getChainFuel_mem ft f fuel start l h,
   getChainFuel_nodup ft f fuel start l h,
   getChainFuel_last ft f fuel start l h⟩

/-- Witness for C8 amended on the FAT16 table `[0xFFF8, 0xFFFF, 3, 0xFFFF]`:
`get_chain(2)` terminates with chain `[2, 3]`. -/
theorem c8_amended_witness :
    (∀ x ∈ [2, 3], 2 ≤ x ∧ x ≤ [0xFFF8, 0xFFFF, 3, 0xFFFF].length - 1) ∧
    List.Nodup [2, 3] ∧
    (∀ last, List.getLast? [2, 3] = some last →
      ¬(1 < [0xFFF8, 0xFFFF, 3, 0xFFFF].getD last 0 ∧
        [0xFFF8, 0xFFFF, 3, 0xFFFF].getD last 0 ≤ badCluster .fat16)) :=
  c8_amended_get_chain .fat16 [0xFFF8, 0xFFFF, 3, 0xFFFF] 10 2 [2, 3]
    (by decide)

/-! ## Cluster streams (`fat/io.py`) -/

/-- `Volume.read_at(pos, size)` (`volume.py`): returns `size` sectors
starting at sector `pos`, with the volume's bounds checks (`ValueError`
outside bounds).  The volume is the byte list `vol` with logical sector
size `lss`. -/
def volReadAt (vol : List Nat) (lss pos sectors : Nat) : Except PyErr (List Nat) :=
  if ¬(pos < vol.length / lss) then .error .valueError
  else if ¬(sectors ≤ vol.length / lss - pos) then .error .valueError
  else .ok ((vol.drop (pos * lss)).take (sectors * lss))

/-- `Volume.write_at(pos, b)` (`volume.py`, then `Disk.write_at` with
`fill_zeroes=False`): writes the bytes `b` at sector `pos` after the
bounds and whole-sector checks.  An empty payload returns early. -/
def volWriteAt (vol : List Nat) (lss pos : Nat) (b : List Nat) :
    Except PyErr (List Nat) :=
  if b.length = 0 then .ok vol
  else if ¬(pos < vol.length / lss) then .error .valueError
  else if ¬((b.length - 1) / lss + 1 ≤ vol.length / lss - pos) then
    .error .valueError
  else if b.length % lss ≠ 0 then .error .valueError
  else .ok (vol.take (pos * lss) ++ b ++ vol.drop (pos * lss + b.length))

/-- `DataIO` (`fat/io.py`): a byte stream over a cluster chain of the data
region.  `chain` is the owned cluster chain, `size` the stream size in
bytes, `pos` the stream position.  The volume is carried inside the
state; the volume is taken as open and writable (the claims under test
presuppose a successful write). -/
structure DataStream where
  vol : List Nat
  lss : Nat
  clusterSize : Nat
  regionStart : Nat
  totalClusters : Nat
  chain : List Nat
  pos : Nat
  size : Nat
deriving DecidableEq, Repr

/-- `self._unit_size = self._cluster_size_bytes = cluster_size * lss`. -/
def DataStream.unitSize (st : DataStream) : Nat :=
  st.clusterSize * st.lss

/-- `DataIO._check_cluster`: `0 <= cluster - 2 < total_clusters`. -/
def DataStream.checkCluster (st : DataStream) (cluster : Nat) : Bool :=
  2 ≤ cluster && cluster - 2 < st.totalClusters

/-- `DataIO._read_units(pos, count)` (`fat/io.py`, lines 282-299): read
`count` clusters starting at chain index `pos`. -/
def DataStream.readUnits (st : DataStream) (pos count : Nat) :
    Except PyErr (List Nat) :=
  if count = 0 then .error .valueError
  else if st.chain.length < pos + count then .error .valueError
  else
    ((st.chain.drop pos).take count).foldlM
      (fun acc cluster => do
        if ¬st.checkCluster cluster then .error .valueError
        else
          let startSector := st.regionStart + (cluster - 2) * st.clusterSize
          let b ← volReadAt st.vol st.lss startSector st.clusterSize
          .ok (acc ++ b))
      []

/-- `DataIO._write_units(pos, b)` (`fat/io.py`, lines 301-325): write `b`
(a whole number of clusters) starting at chain index `pos`. -/
def DataStream.writeUnits (st : DataStream) (pos : Nat) (b : List Nat) :
    Except PyErr DataStream :=
  if b.length % st.unitSize ≠ 0 then .error .valueError
  else
    let count := b.length / st.unitSize
    if count = 0 then .ok st
    else if st.chain.length < pos + count then .error .valueError
    else do
      let clusters := (st.chain.drop pos).take count
      let vol' ← (List.range count).foldlM
        (fun v i => do
          let cluster := clusters.getD i 0
          if ¬st.checkCluster cluster then .error .valueError
          else
            let bPart := (b.drop (i * st.unitSize)).take st.unitSize
            let startSector := st.regionStart + (cluster - 2) * st.clusterSize
            volWriteAt v st.lss startSector bPart)
        st.vol
      .ok { st with vol := vol' }

/-- `DataIO._allocate(min_size)` (`fat/io.py`, lines 200-241), restricted
to its non-allocating branches: when `min_size` does not exceed the current
size, or the owned chain already holds enough clusters, no FAT access
happens.  Allocation of new clusters through the FAT lies outside this
stream model (`notModelled`); the claim under test conditions on writes
within the allocated capacity, which never reach it. -/
def DataStream.allocate (st : DataStream) (minSize : Nat) :
    Except PyErr DataStream :=
  if minSize ≤ st.size then .ok st
  else
    let clustersRequired := (minSize - 1) / st.unitSize + 1
    if clustersRequired ≤ st.chain.length then .ok { st with size := minSize }
    else .error .notModelled

/-- `_InternalIO.write(b)` (`fat/io.py`, lines 89-125): decomposes the byte
range into a leading partial unit, aligned middle bytes, and a trailing
partial unit; partial units are read-modified-written.  Note the trailing
slice is `last_unit[keep_last_unit:]` with
`keep_last_unit = (b_start + size) % unit_size`. -/
def DataStream.write (st : DataStream) (b : List Nat) :
    Except PyErr DataStream :=
  let size := b.length
  if size = 0 then .ok st
  else do
    let stop := st.pos + size
    let st1 ← st.allocate stop
    let startUnit := st1.pos / st1.unitSize
    let stopUnit := (stop - 1) / st1.unitSize + 1
    let bStart := st1.pos % st1.unitSize
    let toWrite ←
      if bStart = 0 ∧ size % st1.unitSize = 0 then .ok b
      else if stopUnit - startUnit = 1 then do
        let unitBytes ← st1.readUnits startUnit 1
        .ok (unitBytes.take bStart ++ b ++ unitBytes.drop (bStart + size))
      else do
        let firstUnit ← st1.readUnits startUnit 1
        let lastUnit ← st1.readUnits (stopUnit - 1) 1
        let keepLastUnit := (bStart + size) % st1.unitSize
        .ok (firstUnit.take bStart ++ b ++ lastUnit.drop keepLastUnit)
    let st2 ← st1.writeUnits startUnit toWrite
    .ok { st2 with pos := st2.pos + size }

/-- `_InternalIO.seek(offset, SEEK_SET)` (`fat/io.py`, lines 48-61). -/
def DataStream.seekSet (st : DataStream) (offset : Int) :
    Except PyErr DataStream :=
  if offset < 0 then .error .valueError
  else .ok { st with pos := offset.toNat }

/-- `_InternalIO.read(size)` (`fat/io.py`, lines 63-80). -/
def DataStream.readBytes (st : DataStream) (size : Int) :
    Except PyErr (List Nat × DataStream) :=
  if size = 0 ∨ st.size ≤ st.pos then .ok ([], st)
  else
    let sizeN : Nat :=
      if size < 0 ∨ (st.size : Int) < (st.pos : Int) + size then
        st.size - st.pos
      else size.toNat
    let stop := st.pos + sizeN
    let startUnit := st.pos / st.unitSize
    let stopUnit := (stop - 1) / st.unitSize + 1
    let bStart := st.pos % st.unitSize
    do
      let bytes ← st.readUnits startUnit (stopUnit - startUnit)
      .ok ((bytes.drop bStart).take sizeN, { st with pos := st.pos + sizeN })

/-- A 3-cluster stream (unit size 4 bytes, 12 bytes capacity) positioned at
byte 2, whose volume bytes are pairwise distinct. -/
def streamC4 : DataStream :=
  { vol := [0, 1, 2, 3, 4, 5, 6, 7, 10, 11, 12, 13], lss := 2,
    clusterSize := 2, regionStart := 0, totalClusters := 3,
    chain := [2, 3, 4], pos := 2, size := 12 }

/-- A 2-cluster stream of capacity exactly 8 bytes positioned at byte 2. -/
def streamC4b : DataStream :=
  { vol := [0, 1, 2, 3, 4, 5, 6, 7], lss := 2, clusterSize := 2,
    regionStart := 0, totalClusters := 2, chain := [2, 3], pos := 2,
    size := 8 }

/-- C4: a write of `n > 0` bytes at position `p` with `p + n` within the
allocated capacity succeeds, reads back, and leaves all other bytes
unchanged.  FALSE in the code whenever the write starts unaligned and ends
exactly on a unit boundary across at least two units: then
`keep_last_unit = 0` and `last_unit[0:]` keeps the whole trailing unit, so
`_write_units` writes one unit past the range.  Failing input: unit size 4,
write 6 bytes at position 2.  On `streamC4` (capacity 12) the write
"succeeds" and reads back, but bytes 8..11 — outside the written range
[2, 8) — change from `[10, 11, 12, 13]` to the old bytes 4..7; on
`streamC4b` (capacity exactly 8) the same in-bounds write raises
`ValueError` instead of succeeding. -/
theorem c4_write_trailing_unit_clobbered :
    (streamC4.write [9, 9, 9, 9, 9, 9]).map (fun s => s.vol) =
      .ok [0, 1, 9, 9, 9, 9, 9, 9, 4, 5, 6, 7] ∧
    ((streamC4.write [9, 9, 9, 9, 9, 9]).bind
      (fun s => (s.seekSet 2).bind
        (fun s2 => (s2.readBytes 6).map (·.1)))) = .ok [9, 9, 9, 9, 9, 9] ∧
    streamC4.vol.drop 8 = [10, 11, 12, 13] ∧
    streamC4b.write [9, 9, 9, 9, 9, 9] = .error .valueError := by
  decide

/-! ## Directory-entry serialization and `iter_entries` (`fat/directory.py`) -/

/-- Little-endian 16-bit decode of two bytes. -/
def dec16 (b0 b1 : Nat) : Nat := b0 + 256 * b1

/-- Little-endian 32-bit decode of four bytes. -/
def dec32 (b0 b1 b2 b3 : Nat) : Nat :=
  b0 + 256 * b1 + 65536 * b2 + 16777216 * b3

/-- `bytes(EightDotThreeEntry)`: the 32-byte little-endian record
(`struct` format `<8s3sBBBHHHHHHHI`), flattened to bytes. -/
def edtToBytes (e : Edt) : List Nat :=
  e.name ++ e.extension ++
    (e.attrs :: e.caseInfoVfat :: e.createdTimeTenMs ::
     e.createdTime % 256 :: e.createdTime / 256 % 256 ::
     e.createdDate % 256 :: e.createdDate / 256 % 256 ::
     e.lastAccessedDate % 256 :: e.lastAccessedDate / 256 % 256 ::
     e.clusterHighFat32 % 256 :: e.clusterHighFat32 / 256 % 256 ::
     e.lastModifiedTime % 256 :: e.lastModifiedTime / 256 % 256 ::
     e.lastModifiedDate % 256 :: e.lastModifiedDate / 256 % 256 ::
     e.clusterLow % 256 :: e.clusterLow / 256 % 256 ::
     e.size % 256 :: e.size / 256 % 256 ::
     e.size / 65536 % 256 :: e.size / 16777216 % 256 :: [])

/-- `EightDotThreeEntry.from_bytes`: parse a 32-byte record
(strict length check as in `struct.unpack`; a wrong-sized record raises). -/
def edtFromBytes (b : List Nat) : Option Edt :=
  if b.length = 32 then
    let r1 := b.drop 8
    let r2 := r1.drop 3
    some { name := b.take 8
           extension := r1.take 3
           attrs := r2.getD 0 0
           caseInfoVfat := r2.getD 1 0
           createdTimeTenMs := r2.getD 2 0
           createdTime := dec16 (r2.getD 3 0) (r2.getD 4 0)
           createdDate := dec16 (r2.getD 5 0) (r2.getD 6 0)
           lastAccessedDate := dec16 (r2.getD 7 0) (r2.getD 8 0)
           clusterHighFat32 := dec16 (r2.getD 9 0) (r2.getD 10 0)
           lastModifiedTime := dec16 (r2.getD 11 0) (r2.getD 12 0)
           lastModifiedDate := dec16 (r2.getD 13 0) (r2.getD 14 0)
           clusterLow := dec16 (r2.getD 15 0) (r2.getD 16 0)
           size := dec32 (r2.getD 17 0) (r2.getD 18 0)
             (r2.getD 19 0) (r2.getD 20 0) }
  else none

/-- `bytes(VfatEntry)`: the 32-byte record (`<B10sBBB12sH4s`). -/
def vfatToBytes (v : Vfat) : List Nat :=
  v.seq :: (v.chars1 ++
    (v.attrs :: v.typ :: v.checksum ::
      (v.chars2 ++ (v.cluster % 256 :: v.cluster / 256 % 256 :: v.chars3))))

/-- `VfatEntry.from_bytes`: parse a 32-byte record; the `ByteStruct`
machinery runs `VfatEntry.validate` on construction, so an invalid record
fails to parse (a `ValidationError`). -/
def vfatFromBytes (b : List Nat) : Option Vfat :=
  if b.length = 32 then
    let r1 := b.drop 1
    let r2 := r1.drop 10
    let r3 := r2.drop 3
    let r4 := r3.drop 12
    let v : Vfat := { seq := b.headD 0
                      chars1 := r1.take 10
                      attrs := r2.getD 0 0
                      typ := r2.getD 1 0
                      checksum := r2.getD 2 0
                      chars2 := r3.take 12
                      cluster := dec16 (r4.getD 0 0) (r4.getD 1 0)
                      chars3 := (r4.drop 2).take 4 }
    if v.validate then some v else none
  else none

/-- An item yielded by `iter_entries`: either a generalized `Entry`
("useful") or a raw `EightDotThreeEntry`. -/
inductive DirItem where
  | full (e : Entry)
  | raw (e : Edt)
deriving DecidableEq, Repr

/-- The loop of `iter_entries` (`fat/directory.py`, lines 712-802) over the
remaining 32-byte records, carrying the two pending lists
(`pending_edt_entries`, `pending_vfat_entries`).  The result collects the
yielded items in order; `EightDotThreeEntry.from_bytes` on a wrong-sized
record raises (`valueError`), and a `ValueError` escaping the
`Entry(...)` construction propagates (only `ValidationError` is caught). -/
def iterGo (onlyUseful vfat fat32 : Bool) :
    List (List Nat) → List Edt → List Vfat → Except PyErr (List DirItem)
  | [], _, _ => .ok []
  | rb :: rest, pendEdt, pendVfat =>
    match edtFromBytes rb with
    | none => .error .valueError
    | some edt =>
      if edt.hint = some 0x00 then .ok (pendEdt.map .raw)
      else if edt.hint = some 0xE5 ∨ edt.hint = some 0x2E ∨
          edt.volumeLabel then do
        let tail ← iterGo onlyUseful vfat fat32 rest [] []
        .ok (pendEdt.map .raw ++
          (if onlyUseful then [] else [.raw edt]) ++ tail)
      else if hasFlag edt.attrs ATTR_VFAT then
        if vfat then
          let pendEdt2 := if onlyUseful then pendEdt else pendEdt ++ [edt]
          match vfatFromBytes rb with
          | none => do
            let tail ← iterGo onlyUseful vfat fat32 rest [] []
            .ok (pendEdt2.map .raw ++ tail)
          | some v => iterGo onlyUseful vfat fat32 rest pendEdt2
              (pendVfat ++ [v])
        else do
          let tail ← iterGo onlyUseful vfat fat32 rest pendEdt pendVfat
          .ok ((if onlyUseful then [] else [.raw edt]) ++ tail)
      else
        match entryInit edt pendVfat vfat fat32 with
        | .ok en => do
          let tail ← iterGo onlyUseful vfat fat32 rest [] []
          .ok (.full en :: tail)
        | .error .validationError =>
          match entryInit edt [] vfat fat32 with
          | .ok en2 => do
            let tail ← iterGo onlyUseful vfat fat32 rest [] []
            .ok (pendEdt.map .raw ++ (.full en2 :: tail))
          | .error e => .error e
        | .error e => .error e

/-- `iter_entries(bytes_iter, only_useful=..., vfat=..., fat_32=...)` from
`fat/directory.py`, fully consumed over a list of 32-byte records. -/
def iterEntries (recs : List (List Nat)) (onlyUseful vfat fat32 : Bool) :
    Except PyErr (List DirItem) :=
  iterGo onlyUseful vfat fat32 recs [] []

/-- The 32-byte records of `bytes(entry)` (`Entry.__bytes__`): the VFAT
entries in physical order followed by the 8.3 entry. -/
def entryRecords (e : Entry) : List (List Nat) :=
  e.vfatEntries.map vfatToBytes ++ [edtToBytes e.eightDotThree]

/-- An all-zero 32-byte record: an end-of-directory marker. -/
def endRecord : List Nat := List.replicate 32 0

/-- C9 counterexample: the claim quantifies over every generalized Entry
with a valid filename, but compares scanned entries with the original
*including* the `vfat` and `fat_32` flags, while the scan runs with
`vfat=true`.  `entryExample` is a valid Entry constructed with
`vfat=false`; scanning its bytes with `vfat=true` yields an Entry that
differs from the original in the `vfat` flag alone, so not exactly one
yielded item equals the original. -/
theorem c9_counter_vfat_flag :
    entryInit edtExample [] false false = .ok entryExample ∧
    iterEntries (entryRecords entryExample ++ [endRecord]) true true false =
      .ok [.full ⟨edtExample, [], true, false⟩] ∧
    (⟨edtExample, [], true, false⟩ : Entry) ≠ entryExample := by
  decide

/-- A list of length `n + 1` is a cons cell. -/
theorem exists_cons_of_len (l : List Nat) (n : Nat) (h : l.length = n + 1) :
    ∃ a t, l = a :: t ∧ t.length = n := by
  cases l with
  | nil => simp at h
  | cons a t => exact ⟨a, t, rfl, by simpa using h⟩

/-- Parsing the serialized form of a well-formed 8.3 entry restores the
entry (`EightDotThreeEntry.from_bytes(bytes(entry)) == entry`). -/
theorem edtFromBytes_edtToBytes (e : Edt) (h : e.wf) :
    edtFromBytes (edtToBytes e) = some e := by
  obtain ⟨hn, _, he, _, _, _, _, hct, hcd, had, hch, hmt, hmd, hcl, hsz⟩ := h
  obtain ⟨nm, ext, a1, ci, tm, ct, cd, ad, ch, mt, md, cl, sz⟩ := e
  simp only at hn he hct hcd had hch hmt hmd hcl hsz
  obtain ⟨n0, nm, rfl, hn1⟩ := exists_cons_of_len nm 7 hn
  obtain ⟨n1, nm, rfl, hn2⟩ := exists_cons_of_len nm 6 hn1
  obtain ⟨n2, nm, rfl, hn3⟩ := exists_cons_of_len nm 5 hn2
  obtain ⟨n3, nm, rfl, hn4⟩ := exists_cons_of_len nm 4 hn3
  obtain ⟨n4, nm, rfl, hn5⟩ := exists_cons_of_len nm 3 hn4
  obtain ⟨n5, nm, rfl, hn6⟩ := exists_cons_of_len nm 2 hn5
  obtain ⟨n6, nm, rfl, hn7⟩ := exists_cons_of_len nm 1 hn6
  obtain ⟨n7, nm, rfl, hn8⟩ := exists_cons_of_len nm 0 hn7
  rw [List.length_eq_zero] at hn8
  subst hn8
  obtain ⟨e0, ext, rfl, he1⟩ := exists_cons_of_len ext 2 he
  obtain ⟨e1, ext, rfl, he2⟩ := exists_cons_of_len ext 1 he1
  obtain ⟨e2, ext, rfl, he3⟩ := exists_cons_of_len ext 0 he2
  rw [List.length_eq_zero] at he3
  subst he3
  simp only [edtToBytes, edtFromBytes, List.cons_append, List.nil_append,
    List.length_cons, List.length_nil]
  norm_num [List.take, List.drop, List.getD, List.get?, dec16, dec32]
  refine ⟨?_, ?_, ?_, ?_, ?_, ?_, ?_, ?_⟩ <;> omega

/-- Parsing the serialized form of a well-formed, valid VFAT entry restores
the entry (`VfatEntry.from_bytes(bytes(entry)) == entry`). -/
theorem vfatFromBytes_vfatToBytes (v : Vfat) (h : v.wfFields)
    (hv : v.validate = true) : vfatFromBytes (vfatToBytes v) = some v := by
  obtain ⟨_, h1, _, _, _, _, h2, _, hcl, h3, _⟩ := h
  obtain ⟨sq, c1, a1, ty, ck, c2, cl, c3⟩ := v
  simp only at h1 h2 h3 hcl
  unfold Vfat.validate Vfat.number at hv
  simp only at hv
  obtain ⟨b0, c1, rfl, k1⟩ := exists_cons_of_len c1 9 h1
  obtain ⟨b1, c1, rfl, k2⟩ := exists_cons_of_len c1 8 k1
  obtain ⟨b2, c1, rfl, k3⟩ := exists_cons_of_len c1 7 k2
  obtain ⟨b3, c1, rfl, k4⟩ := exists_cons_of_len c1 6 k3
  obtain ⟨b4, c1, rfl, k5⟩ := exists_cons_of_len c1 5 k4
  obtain ⟨b5, c1, rfl, k6⟩ := exists_cons_of_len c1 4 k5
  obtain ⟨b6, c1, rfl, k7⟩ := exists_cons_of_len c1 3 k6
  obtain ⟨b7, c1, rfl, k8⟩ := exists_cons_of_len c1 2 k7
  obtain ⟨b8, c1, rfl, k9⟩ := exists_cons_of_len c1 1 k8
  obtain ⟨b9, c1, rfl, k10⟩ := exists_cons_of_len c1 0 k9
  rw [List.length_eq_zero] at k10
  subst k10
  obtain ⟨d0, c2, rfl, m1⟩ := exists_cons_of_len c2 11 h2
  obtain ⟨d1, c2, rfl, m2⟩ := exists_cons_of_len c2 10 m1
  obtain ⟨d2, c2, rfl, m3⟩ := exists_cons_of_len c2 9 m2
  obtain ⟨d3, c2, rfl, m4⟩ := exists_cons_of_len c2 8 m3
  obtain ⟨d4, c2, rfl, m5⟩ := exists_cons_of_len c2 7 m4
  obtain ⟨d5, c2, rfl, m6⟩ := exists_cons_of_len c2 6 m5
  obtain ⟨d6, c2, rfl, m7⟩ := exists_cons_of_len c2 5 m6
  obtain ⟨d7, c2, rfl, m8⟩ := exists_cons_of_len c2 4 m7
  obtain ⟨d8, c2, rfl, m9⟩ := exists_cons_of_len c2 3 m8
  obtain ⟨d9, c2, rfl, m10⟩ := exists_cons_of_len c2 2 m9
  obtain ⟨d10, c2, rfl, m11⟩ := exists_cons_of_len c2 1 m10
  obtain ⟨d11, c2, rfl, m12⟩ := exists_cons_of_len c2 0 m11
  rw [List.length_eq_zero] at m12
  subst m12
  obtain ⟨g0, c3, rfl, p1⟩ := exists_cons_of_len c3 3 h3
  obtain ⟨g1, c3, rfl, p2⟩ := exists_cons_of_len c3 2 p1
  obtain ⟨g2, c3, rfl, p3⟩ := exists_cons_of_len c3 1 p2
  obtain ⟨g3, c3, rfl, p4⟩ := exists_cons_of_len c3 0 p3
  rw [List.length_eq_zero] at p4
  subst p4
  have hdec : dec16 (cl % 256) (cl / 256 % 256) = cl := by
    unfold dec16; omega
  simp only [vfatToBytes, vfatFromBytes, List.cons_append, List.nil_append,
    List.length_cons, List.length_nil]
  norm_num [List.take, List.drop, List.getD, List.get?, List.headD]
  rw [hdec]
  refine ⟨?_, rfl⟩
  unfold Vfat.validate Vfat.number
  simp only
  exact hv

/-- Parsing a VFAT record as an 8.3 entry yields an entry whose first name
byte is the sequence byte and whose attribute byte is the VFAT attribute
byte (offsets 0 and 11 coincide). -/
theorem edtFromBytes_vfatToBytes (v : Vfat) (h1 : v.chars1.length = 10)
    (h2 : v.chars2.length = 12) (h3 : v.chars3.length = 4) :
    ∃ ed, edtFromBytes (vfatToBytes v) = some ed ∧
      ed.name.headD 0 = v.seq ∧ ed.attrs = v.attrs := by
  obtain ⟨sq, c1, a1, ty, ck, c2, cl, c3⟩ := v
  simp only at h1 h2 h3
  obtain ⟨b0, c1, rfl, k1⟩ := exists_cons_of_len c1 9 h1
  obtain ⟨b1, c1, rfl, k2⟩ := exists_cons_of_len c1 8 k1
  obtain ⟨b2, c1, rfl, k3⟩ := exists_cons_of_len c1 7 k2
  obtain ⟨b3, c1, rfl, k4⟩ := exists_cons_of_len c1 6 k3
  obtain ⟨b4, c1, rfl, k5⟩ := exists_cons_of_len c1 5 k4
  obtain ⟨b5, c1, rfl, k6⟩ := exists_cons_of_len c1 4 k5
  obtain ⟨b6, c1, rfl, k7⟩ := exists_cons_of_len c1 3 k6
  obtain ⟨b7, c1, rfl, k8⟩ := exists_cons_of_len c1 2 k7
  obtain ⟨b8, c1, rfl, k9⟩ := exists_cons_of_len c1 1 k8
  obtain ⟨b9, c1, rfl, k10⟩ := exists_cons_of_len c1 0 k9
  rw [List.length_eq_zero] at k10
  subst k10
  obtain ⟨d0, c2, rfl, m1⟩ := exists_cons_of_len c2 11 h2
  obtain ⟨d1, c2, rfl, m2⟩ := exists_cons_of_len c2 10 m1
  obtain ⟨d2, c2, rfl, m3⟩ := exists_cons_of_len c2 9 m2
  obtain ⟨d3, c2, rfl, m4⟩ := exists_cons_of_len c2 8 m3
  obtain ⟨d4, c2, rfl, m5⟩ := exists_cons_of_len c2 7 m4
  obtain ⟨d5, c2, rfl, m6⟩ := exists_cons_of_len c2 6 m5
  obtain ⟨d6, c2, rfl, m7⟩ := exists_cons_of_len c2 5 m6
  obtain ⟨d7, c2, rfl, m8⟩ := exists_cons_of_len c2 4 m7
  obtain ⟨d8, c2, rfl, m9⟩ := exists_cons_of_len c2 3 m8
  obtain ⟨d9, c2, rfl, m10⟩ := exists_cons_of_len c2 2 m9
  obtain ⟨d10, c2, rfl, m11⟩ := exists_cons_of_len c2 1 m10
  obtain ⟨d11, c2, rfl, m12⟩ := exists_cons_of_len c2 0 m11
  rw [List.length_eq_zero] at m12
  subst m12
  obtain ⟨g0, c3, rfl, p1⟩ := exists_cons_of_len c3 3 h3
  obtain ⟨g1, c3, rfl, p2⟩ := exists_cons_of_len c3 2 p1
  obtain ⟨g2, c3, rfl, p3⟩ := exists_cons_of_len c3 1 p2
  obtain ⟨g3, c3, rfl, p4⟩ := exists_cons_of_len c3 0 p3
  rw [List.length_eq_zero] at p4
  subst p4
  exact ⟨_, rfl, rfl, rfl⟩

/-- A valid VFAT entry's sequence byte is nonzero (its masked sequence
number is at least 1). -/
theorem Vfat.validate_seq_ne_zero (v : Vfat) (h : v.validate = true) :
    v.seq ≠ 0 := by
  intro h0
  unfold Vfat.validate Vfat.number at h
  rw [h0] at h
  simp at h

/-- Facts recovered from a successful `Entry` construction: the 8.3 entry
has no hint byte, is not a volume label, does not carry the VFAT
attribute, and the resulting entry is exactly the given data. -/
theorem entryInit_ok_facts (edt : Edt) (vfats : List Vfat)
    (vfat fat32 : Bool) (e : Entry)
    (h : entryInit edt vfats vfat fat32 = .ok e) :
    edt.hint = none ∧ edt.volumeLabel = false ∧
    hasFlag edt.attrs ATTR_VFAT = false ∧ e = ⟨edt, vfats, vfat, fat32⟩ := by
  unfold entryInit at h
  split_ifs at h with h1 h2 h3 h4 h5 h6 h7
  exact ⟨not_not.mp h2, by simpa using h3, by simpa using h4,
    by cases h; rfl⟩

/-- The parse of an all-zero record. -/
def edtZero : Edt :=
  ⟨[0, 0, 0, 0, 0, 0, 0, 0], [0, 0, 0], 0, 0, 0, 0, 0, 0, 0, 0, 0, 0, 0⟩

/-- The `iter_entries` loop stops at an end-of-directory record, yielding
the pending raw 8.3 entries. -/
theorem iterGo_endRecord (ou vf f32 : Bool) (pendE : List Edt)
    (pendV : List Vfat) :
    iterGo ou vf f32 [endRecord] pendE pendV = .ok (pendE.map .raw) := by
  have hz : edtFromBytes endRecord = some edtZero := by decide
  have hh : edtZero.hint = some 0 := by decide
  simp only [iterGo, hz, hh]
  rfl

/-- A valid VFAT entry carries the full VFAT attribute combination. -/
theorem Vfat.validate_attrs (v : Vfat) (h : v.validate = true) :
    hasFlag v.attrs ATTR_VFAT = true := by
  unfold Vfat.validate at h
  simp only [Bool.and_eq_true] at h
  exact h.1.1.1

/-- The `iter_entries` loop applied to the records of a valid VFAT chain
followed by its 8.3 record and an end-of-directory record yields exactly
the reconstructed generalized entry. -/
theorem iterGo_entry_chunks (fat32 : Bool) (edt : Edt) (hwf : edt.wf) :
    ∀ (vs pend : List Vfat),
      (∀ v ∈ vs, v.wfFields ∧ v.validate = true ∧
        v.seq ≠ 0x2E ∧ v.seq ≠ 0xE5) →
      entryInit edt (pend ++ vs) true fat32 =
        .ok ⟨edt, pend ++ vs, true, fat32⟩ →
      iterGo true true fat32
          (vs.map vfatToBytes ++ [edtToBytes edt, endRecord]) [] pend =
        .ok [.full ⟨edt, pend ++ vs, true, fat32⟩] := by
  intro vs
  induction vs with
  | nil =>
    intro pend hvs hinit
    rw [List.append_nil] at hinit
    obtain ⟨hh, hvl, hfl, _⟩ :=
      entryInit_ok_facts _ _ _ _ _ hinit
    have hrt := edtFromBytes_edtToBytes edt hwf
    simp only [List.map_nil, List.nil_append, iterGo, hrt]
    rw [if_neg (by simp [hh]), if_neg (by simp [hh, hvl]),
      if_neg (by simp [hfl])]
    simp only [hinit, iterGo_endRecord]
    rw [List.append_nil]
    rfl
  | cons v vs ih =>
    intro pend hvs hinit
    have hv := hvs v (List.mem_cons_self v vs)
    obtain ⟨hvwf, hval, hs2E, hsE5⟩ := hv
    have hs0 := Vfat.validate_seq_ne_zero v hval
    have hfv := Vfat.validate_attrs v hval
    obtain ⟨_, hc1, _, _, _, _, hc2, _, _, hc3, _⟩ := hvwf
    obtain ⟨ed, hed, hhead, hattrs⟩ :=
      edtFromBytes_vfatToBytes v hc1 hc2 hc3
    have hvrt := vfatFromBytes_vfatToBytes v
      ⟨by assumption, hc1, by assumption, by assumption, by assumption,
       by assumption, hc2, by assumption, by assumption, hc3,
       by assumption⟩ hval
    have hintnone : ed.hint = none := by
      unfold Edt.hint
      rw [hhead, if_neg]
      rintro (h | h | h) <;> [exact hs0 h; exact hs2E h; exact hsE5 h]
    have hvoll : ed.volumeLabel = false := by
      unfold Edt.volumeLabel
      rw [hattrs]
      have : hasFlag v.attrs ATTR_VFAT = true := hfv
      have h8 : ATTR_VFAT = 0x0F := rfl
      simp [this]
    have hfl2 : hasFlag ed.attrs ATTR_VFAT = true := by rw [hattrs]; exact hfv
    simp only [List.map_cons, List.cons_append, iterGo, hed, hvrt]
    rw [if_neg (by simp [hintnone]), if_neg (by simp [hintnone, hvoll]),
      if_pos hfl2]
    simp only [if_true]
    have hrec := ih (pend ++ [v])
      (fun w hw => hvs w (List.mem_cons_of_mem v hw))
      (by rw [List.append_cons pend v vs] at hinit; exact hinit)
    rw [List.append_cons pend v vs]
    exact hrec

/-- C9 amended: for every generalized Entry constructed with `vfat=true`
whose 8.3 entry and VFAT entries are well-formed and whose VFAT sequence
bytes avoid the hint values `0x2E` and `0xE5`, splitting `bytes(entry)`
into 32-byte records and feeding them (followed by an end-of-directory
record) to `iter_entries` with `only_useful=true`, `vfat=true` and matching
`fat_32` yields exactly one item, an `Entry` equal to the original
(including the `vfat` and `fat_32` flags).  For entries constructed with
`vfat=false`, or whose sequence bytes collide with the deleted/dot hint
bytes, the scan does not restore the original. -/
theorem c9_amended_entry_scan_roundtrip (e : Entry)
    (hwf : e.eightDotThree.wf)
    (hvs : ∀ v ∈ e.vfatEntries, v.wfFields ∧ v.validate = true ∧
      v.seq ≠ 0x2E ∧ v.seq ≠ 0xE5)
    (hvfat : e.vfat = true)
    (hinit : entryInit e.eightDotThree e.vfatEntries e.vfat e.fat32 =
      .ok e) :
    iterEntries (entryRecords e ++ [endRecord]) true true e.fat32 =
      .ok [.full e] := by
  obtain ⟨edt, vfats, vf, f32⟩ := e
  simp only at hwf hvs hvfat hinit ⊢
  subst hvfat
  have hinit' : entryInit edt ([] ++ vfats) true f32 =
      .ok ⟨edt, [] ++ vfats, true, f32⟩ := by
    rw [List.nil_append]
    rw [(entryInit_ok_facts _ _ _ _ _ hinit).2.2.2] at hinit
    exact hinit
  have h := iterGo_entry_chunks f32 edt hwf vfats [] hvs hinit'
  rw [List.nil_append] at h
  unfold iterEntries entryRecords
  simp only [List.append_assoc, List.singleton_append]
  exact h

/-- Witness for C9 amended: a valid entry constructed with `vfat=true` and
no VFAT entries scans back to exactly itself. -/
theorem c9_amended_witness :
    iterEntries (entryRecords ⟨edtExample, [], true, false⟩ ++ [endRecord])
      true true false = .ok [.full ⟨edtExample, [], true, false⟩] :=
  c9_amended_entry_scan_roundtrip ⟨edtExample, [], true, false⟩
    (by decide) (by decide) rfl (by decide)

/-! ## FileSystem `openfd` (`fat/filesystem.py`)

Paths are modelled as lists of name components of an already-normalized
absolute path (`realpath` performs lexical normalization only, which is the
identity on such paths; `[]` denotes the root).  `entry_match`'s
case-insensitive filename matching is abstracted to equality on canonical
names carried by the tree nodes. -/

/-- `Node` from `fat/filesystem.py`: an in-memory tree node carrying its
entry's canonical name and directory attribute, the lazily-parsed children
(`none` = not parsed yet) and the `in_use` flag. -/
inductive FsNode where
  | mk (name : List Nat) (isDir : Bool) (children : Option (List FsNode))
      (inUse : Bool)

instance : Inhabited FsNode := ⟨.mk [] false none false⟩

/-- Name component of a node. -/
def FsNode.name : FsNode → List Nat
  | .mk n _ _ _ => n

/-- `Node.is_directory` (the `SUBDIRECTORY` attribute). -/
def FsNode.isDir : FsNode → Bool
  | .mk _ d _ _ => d

/-- The node's children, `none` when not parsed yet. -/
def FsNode.childrenOpt : FsNode → Option (List FsNode)
  | .mk _ _ c _ => c

/-- The node's `in_use` flag. -/
def FsNode.inUse : FsNode → Bool
  | .mk _ _ _ u => u

/-- In-place mutation `child.in_use = b`. -/
def FsNode.setInUse : FsNode → Bool → FsNode
  | .mk n d c _, u => .mk n d c u

/-- In-place replacement of the children list. -/
def FsNode.setChildren : FsNode → Option (List FsNode) → FsNode
  | .mk n d _ u, c => .mk n d c u

/-- Index of the first matching child (the `for child in children: if
entry_match(...)` scan with `break`). -/
def findIdxA (p : FsNode → Bool) : List FsNode → Option Nat
  | [] => none
  | c :: cs => if p c then some 0 else (findIdxA p cs).map (· + 1)

/-- The loop of `FileSystem._find_node` (`fat/filesystem.py`, lines
346-390) over the remaining path parts and the current directory's
children, rebuilding the (mutated) children list.  Errors: `ENOENT` when a
part is missing or a non-final part is not a directory, `EACCES` when
`check_in_use` finds the leaf in use; scanning a directory whose children
are not parsed yet reads the volume and is outside this model
(`notModelled`).  The matched child at every level is mutated by
`set_in_use`/`unset_in_use` before any of those checks. -/
def findNodeGo (setIn unsetIn checkIn : Bool) :
    List (List Nat) → List FsNode → (Except PyErr FsNode) × List FsNode
  | [], children => (.error (.osErr 2), children)
  | part :: rest, children =>
    match findIdxA (fun c => c.name == part) children with
    | none => (.error (.osErr 2), children)
    | some i =>
      let c := children.getD i default
      let c1 := if setIn then c.setInUse true
                else if unsetIn then c.setInUse false else c
      if rest = [] then
        if checkIn ∧ c1.inUse = true then
          (.error (.osErr 13), children.set i c1)
        else (.ok c1, children.set i c1)
      else if c1.isDir then
        match c1.childrenOpt with
        | none => (.error .notModelled, children.set i c1)
        | some gs =>
          let (r, gs') := findNodeGo setIn unsetIn checkIn rest gs
          (r, children.set i (c1.setChildren (some gs')))
      else (.error (.osErr 2), children.set i c1)

/-- A file-descriptor table row (`FdTableRow`): the shared stream (as a
token), the status flags and the absolute path. -/
structure FdRow where
  streamTok : Nat
  readable : Bool
  writable : Bool
  appending : Bool
  path : List (List Nat)
deriving DecidableEq, Repr

/-- The mutable state of a FAT `FileSystem`: the cached root children, the
file-descriptor table, the volume's writability and the volume bytes
(carried only to state that `openfd`'s failure paths write nothing). -/
structure FsState where
  rootChildren : Option (List FsNode)
  fdTable : List (Nat × FdRow)
  writable : Bool
  vol : List Nat

/-- `FileSystem._find_node(path, ...)` on the cached tree. -/
def findNode (fs : FsState) (parts : List (List Nat))
    (setIn unsetIn checkIn : Bool) : (Except PyErr FsNode) × FsState :=
  match fs.rootChildren with
  | none => (.error .notModelled, fs)
  | some cs =>
    let (r, cs') := findNodeGo setIn unsetIn checkIn parts cs
    (r, { fs with rootChildren := some cs' })

/-- `FileSystem._find_node_or_root`: the root is returned as `none`. -/
def findNodeOrRoot (fs : FsState) (parts : List (List Nat)) :
    (Except PyErr (Option FsNode)) × FsState :=
  if parts = [] then (.ok none, fs)
  else
    match findNode fs parts false false false with
    | (.ok n, fs1) => (.ok (some n), fs1)
    | (.error e, fs1) => (.error e, fs1)

/-- `StatusFlags` from `filesystem.py`. -/
structure StatusFl where
  readable : Bool
  writable : Bool
  appending : Bool
deriving DecidableEq, Repr

/-- `parse_flags(flags)` from `filesystem.py` (lines 97-117), with the
Linux values of the `os.O_*` constants (`O_ACCMODE=3`, `O_CREAT=64`,
`O_EXCL=128`, `O_TRUNC=512`, `O_APPEND=1024`). -/
def parseFlags (flags : Nat) : Except PyErr (StatusFl × Bool × Bool × Bool) :=
  let access := flags &&& 3
  let readable := access == 0 || access == 2
  let writable := access == 1 || access == 2
  let appending := flags &&& 1024 != 0
  let creating := flags &&& 64 != 0
  let exclusive := flags &&& 128 != 0
  let truncating := flags &&& 512 != 0
  if exclusive ∧ ¬creating then .error .valueError
  else if creating ∧ ¬writable then .error .valueError
  else if truncating ∧ ¬writable then .error .valueError
  else .ok (⟨readable, writable, appending⟩, creating, exclusive, truncating)

/-- `FileSystem._new_fd`: the smallest free descriptor number `≥ 3`. -/
def newFd (tbl : List (Nat × FdRow)) : Nat :=
  ((List.range (tbl.length + 4)).filter
    (fun n => decide (3 ≤ n) && tbl.all (fun row => row.1 != n))).headD 3

/-- The tail of `FileSystem.openfd` after the stream is obtained
(`fat/filesystem.py`, lines 597-606): the `EEXIST` check — run *after* the
`in_use` flag was set — then descriptor allocation and the `O_TRUNC`
truncation (a volume write, outside this model and unreached on the
failure paths under study). -/
def openfdFinish (fs : FsState) (parts : List (List Nat)) (sf : StatusFl)
    (exclusive truncating : Bool) (tok : Nat) (exists_ : Bool) :
    (Except PyErr Nat) × FsState :=
  if exists_ ∧ exclusive = true then (.error (.osErr 17), fs)
  else
    let fd := newFd fs.fdTable
    let fs1 := { fs with fdTable := fs.fdTable ++
      [(fd, ⟨tok, sf.readable, sf.writable, sf.appending, parts⟩)] }
    if truncating = true then (.error .notModelled, fs1)
    else (.ok fd, fs1)

/-- `FileSystem.openfd(path, flags, mode)` from `fat/filesystem.py` (lines
562-606).  `DataIO` construction only reads the FAT, so it is modelled as
drawing a fresh stream token; `_create_child` (reached only when the path
does not exist and `O_CREAT` is set) writes directory entries and is
outside this model. -/
def openfd (fs : FsState) (parts : List (List Nat)) (flags : Nat) :
    (Except PyErr Nat) × FsState :=
  if parts = [] then (.error (.osErr 21), fs)
  else
    match parseFlags flags with
    | .error e => (.error e, fs)
    | .ok (sf, creating, exclusive, truncating) =>
      if sf.writable = true ∧ fs.writable = false then
        (.error .valueError, fs)
      else
        match (fs.fdTable.find? (fun row => row.2.path == parts)).map
            (fun row => row.2.streamTok) with
        | some tok => openfdFinish fs parts sf exclusive truncating tok true
        | none =>
          match findNodeOrRoot fs parts.dropLast with
          | (.error e, fs1) => (.error e, fs1)
          | (.ok _, fs1) =>
            match findNode fs1 parts false false false with
            | (.error (.osErr 2), fs2) =>
              if creating = false then (.error (.osErr 2), fs2)
              else (.error .notModelled, fs2)
            | (.error e, fs2) => (.error e, fs2)
            | (.ok node, fs2) =>
              if node.isDir = true then (.error (.osErr 21), fs2)
              else
                let tok := 1000 + fs2.fdTable.length
                match findNode fs2 parts true false false with
                | (.error e, fs3) => (.error e, fs3)
                | (.ok _, fs3) =>
                  openfdFinish fs3 parts sf exclusive truncating tok true

/-- Pure lookup of a node along a path (the flag-free scan of
`_find_node`), used to observe the tree after a call. -/
def lookupNode : List (List Nat) → List FsNode → Option FsNode
  | [], _ => none
  | part :: rest, children =>
    match findIdxA (fun c => c.name == part) children with
    | none => none
    | some i =>
      let c := children.getD i default
      if rest = [] then some c
      else if c.isDir then
        match c.childrenOpt with
        | none => none
        | some gs => lookupNode rest gs
      else none

/-- The `in_use` flag of the node a path resolves to. -/
def lookupInUse (fs : FsState) (parts : List (List Nat)) : Option Bool :=
  match fs.rootChildren with
  | none => none
  | some cs => (lookupNode parts cs).map FsNode.inUse

/-- A file system with one regular file `A` (name byte 65), not in use,
no open descriptors. -/
def fsC10 : FsState :=
  { rootChildren := some [.mk [65] false none false]
    fdTable := []
    writable := true
    vol := [7] }

/-- C10 counterexample: the claim says a failed `O_CREAT|O_EXCL` open of an
existing, not-open regular file leaves the file-system state unchanged, in
particular the node's `in_use` flag.  On `fsC10`, opening `/A` with
`O_WRONLY|O_CREAT|O_EXCL` (flags 193) raises `EEXIST`, yet the target
node's `in_use` flag flips from `false` to `true`: `openfd` runs
`_find_node(realpath, set_in_use=True)` *before* the exclusive-existence
check and never rolls it back. -/
theorem c10_counter_in_use_leaked :
    (openfd fsC10 [[65]] 193).1 = .error (.osErr 17) ∧
    lookupInUse fsC10 [[65]] = some false ∧
    lookupInUse (openfd fsC10 [[65]] 193).2 [[65]] = some true ∧
    (openfd fsC10 [[65]] 193).2.fdTable = [] ∧
    (openfd fsC10 [[65]] 193).2.vol = fsC10.vol :=
  ⟨rfl, rfl, rfl, rfl, rfl⟩

/-- `setInUse` preserves the node's name. -/
theorem FsNode.name_setInUse (c : FsNode) (b : Bool) :
    (c.setInUse b).name = c.name := by cases c; rfl

/-- `setChildren` preserves the node's name. -/
theorem FsNode.name_setChildren (c : FsNode) (o : Option (List FsNode)) :
    (c.setChildren o).name = c.name := by cases c; rfl

/-- `setChildren` preserves the directory attribute. -/
theorem FsNode.isDir_setChildren (c : FsNode) (o : Option (List FsNode)) :
    (c.setChildren o).isDir = c.isDir := by cases c; rfl

/-- `setChildren` sets the children. -/
theorem FsNode.childrenOpt_setChildren (c : FsNode)
    (o : Option (List FsNode)) : (c.setChildren o).childrenOpt = o := by
  cases c; rfl

/-- `setInUse` sets the `in_use` flag. -/
theorem FsNode.inUse_setInUse (c : FsNode) (b : Bool) :
    (c.setInUse b).inUse = b := by cases c; rfl

/-- Unfolding equation for `findIdxA` on a cons cell. -/
theorem findIdxA_cons (p : FsNode → Bool) (c : FsNode) (cs : List FsNode) :
    findIdxA p (c :: cs) =
      if p c then some 0 else (findIdxA p cs).map (· + 1) := rfl

/-- A found index is within bounds. -/
theorem findIdxA_lt (p : FsNode → Bool) :
    ∀ (l : List FsNode) (i : Nat), findIdxA p l = some i → i < l.length := by
  intro l
  induction l with
  | nil => intro i h; simp [findIdxA] at h
  | cons c cs ih =>
    intro i h
    rw [findIdxA_cons] at h
    by_cases hp : p c
    · rw [if_pos hp] at h
      cases h
      simp
    · rw [if_neg hp] at h
      rcases Option.map_eq_some'.mp h with ⟨j, hj, hji⟩
      have := ih j hj
      simp only [List.length_cons]
      omega

/-- The element at a found index satisfies the predicate. -/
theorem findIdxA_pred (p : FsNode → Bool) :
    ∀ (l : List FsNode) (i : Nat), findIdxA p l = some i →
      p (l.getD i default) = true := by
  intro l
  induction l with
  | nil => intro i h; simp [findIdxA] at h
  | cons c cs ih =>
    intro i h
    rw [findIdxA_cons] at h
    by_cases hp : p c
    · rw [if_pos hp] at h
      cases h
      simpa using hp
    · rw [if_neg hp] at h
      rcases Option.map_eq_some'.mp h with ⟨j, hj, hji⟩
      cases hji
      simpa using ih j hj

/-- Replacing the found element with one still matching the predicate
keeps the found index. -/
theorem findIdxA_set (p : FsNode → Bool) :
    ∀ (l : List FsNode) (i : Nat) (c1 : FsNode),
      findIdxA p l = some i → p c1 = true →
      findIdxA p (l.set i c1) = some i := by
  intro l
  induction l with
  | nil => intro i c1 h _; simp [findIdxA] at h
  | cons c cs ih =>
    intro i c1 h hc
    rw [findIdxA_cons] at h
    by_cases hp : p c
    · rw [if_pos hp] at h
      cases h
      simp [List.set, findIdxA_cons, hc]
    · rw [if_neg hp] at h
      rcases Option.map_eq_some'.mp h with ⟨j, hj, hji⟩
      cases hji
      simp only [List.set, findIdxA_cons, if_neg hp]
      rw [ih j c1 hj hc]
      rfl

/-- `getD` after `set` at the same (in-bounds) index. -/
theorem getD_set_self :
    ∀ (l : List FsNode) (i : Nat) (c : FsNode), i < l.length →
      (l.set i c).getD i default = c := by
  intro l
  induction l with
  | nil => intro i c h; simp at h
  | cons a as ih =>
    intro i c h
    cases i with
    | zero => rfl
    | succ j =>
      simp only [List.set]
      exact ih j c (by simpa using h)

/-- Unfolding equation for `findNodeGo` on a cons path. -/
theorem findNodeGo_cons (si ui ci : Bool) (part : List Nat)
    (rest : List (List Nat)) (children : List FsNode) :
    findNodeGo si ui ci (part :: rest) children =
      match findIdxA (fun c => c.name == part) children with
      | none => (.error (.osErr 2), children)
      | some i =>
        let c := children.getD i default
        let c1 := if si then c.setInUse true
                  else if ui then c.setInUse false else c
        if rest = [] then
          if ci ∧ c1.inUse = true then
            (.error (.osErr 13), children.set i c1)
          else (.ok c1, children.set i c1)
        else if c1.isDir then
          match c1.childrenOpt with
          | none => (.error .notModelled, children.set i c1)
          | some gs =>
            let (r, gs') := findNodeGo si ui ci rest gs
            (r, children.set i (c1.setChildren (some gs')))
        else (.error (.osErr 2), children.set i c1) := rfl

/-- Unfolding equation for `lookupNode` on a cons path. -/
theorem lookupNode_cons (part : List Nat) (rest : List (List Nat))
    (children : List FsNode) :
    lookupNode (part :: rest) children =
      match findIdxA (fun c => c.name == part) children with
      | none => none
      | some i =>
        let c := children.getD i default
        if rest = [] then some c
        else if c.isDir then
          match c.childrenOpt with
          | none => none
          | some gs => lookupNode rest gs
        else none := rfl

/-- `findNodeGo` with `set_in_use=True` at a cons path whose head matches
child `i`. -/
theorem findNodeGo_setIn_cons_some (part : List Nat)
    (rest : List (List Nat)) (children : List FsNode) (i : Nat)
    (h : findIdxA (fun c => c.name == part) children = some i) :
    findNodeGo true false false (part :: rest) children =
      (if rest = [] then
        (.ok ((children.getD i default).setInUse true),
         children.set i ((children.getD i default).setInUse true))
      else if ((children.getD i default).setInUse true).isDir then
        match ((children.getD i default).setInUse true).childrenOpt with
        | none => (.error .notModelled,
            children.set i ((children.getD i default).setInUse true))
        | some gs =>
          ((findNodeGo true false false rest gs).1,
           children.set i
             (((children.getD i default).setInUse true).setChildren
               (some (findNodeGo true false false rest gs).2)))
      else (.error (.osErr 2),
        children.set i ((children.getD i default).setInUse true))) := by
  rw [findNodeGo_cons, h]
  rfl

/-- `lookupNode` at a cons path whose head matches child `i`. -/
theorem lookupNode_cons_some (part : List Nat) (rest : List (List Nat))
    (children : List FsNode) (i : Nat)
    (h : findIdxA (fun c => c.name == part) children = some i) :
    lookupNode (part :: rest) children =
      (if rest = [] then some (children.getD i default)
      else if (children.getD i default).isDir then
        match (children.getD i default).childrenOpt with
        | none => none
        | some gs => lookupNode rest gs
      else none) := by
  rw [lookupNode_cons, h]

/-- When `_find_node(path, set_in_use=True)` succeeds, the path resolves in
the updated tree to the returned node, whose `in_use` flag is set. -/
theorem findNodeGo_setIn_lookup :
    ∀ (parts : List (List Nat)) (children : List FsNode) (node : FsNode),
      (findNodeGo true false false parts children).1 = .ok node →
      lookupNode parts (findNodeGo true false false parts children).2 =
        some node ∧ node.inUse = true := by
  intro parts
  induction parts with
  | nil =>
    intro children node h
    simp [findNodeGo] at h
  | cons part rest ih =>
    intro children node h
    cases hidx : findIdxA (fun c => c.name == part) children with
    | none =>
      rw [findNodeGo_cons, hidx] at h
      exact absurd h (by simp)
    | some i =>
      rw [findNodeGo_setIn_cons_some part rest children i hidx] at h ⊢
      have hpred := findIdxA_pred _ children i hidx
      have hlt := findIdxA_lt _ children i hidx
      have hp1 : (fun x => x.name == part)
          ((children.getD i default).setInUse true) = true := by
        simp only [FsNode.name_setInUse]
        exact hpred
      by_cases hrest : rest = []
      · rw [if_pos hrest] at h ⊢
        have h2 : Except.ok ((children.getD i default).setInUse true)
            = Except.ok node := h
        injection h2 with h2
        subst h2
        refine ⟨?_, by rw [FsNode.inUse_setInUse]⟩
        show lookupNode (part :: rest)
            (children.set i ((children.getD i default).setInUse true))
          = some ((children.getD i default).setInUse true)
        rw [lookupNode_cons_some part rest _ i
          (findIdxA_set _ children i _ hidx hp1)]
        rw [if_pos hrest, getD_set_self children i _ hlt]
      · rw [if_neg hrest] at h ⊢
        by_cases hdir : ((children.getD i default).setInUse true).isDir = true
        · rw [if_pos hdir] at h ⊢
          cases hco : ((children.getD i default).setInUse true).childrenOpt
            with
          | none =>
            rw [hco] at h
            exact absurd h (by simp)
          | some gs =>
            rw [hco] at h
            have h2 : (findNodeGo true false false rest gs).1 = .ok node := h
            have hrec := ih gs node h2
            have hp2 : (fun x => x.name == part)
                (((children.getD i default).setInUse true).setChildren
                  (some (findNodeGo true false false rest gs).2)) = true := by
              simp only [FsNode.name_setChildren]
              exact hp1
            refine ⟨?_, hrec.2⟩
            show lookupNode (part :: rest)
                (children.set i
                  (((children.getD i default).setInUse true).setChildren
                    (some (findNodeGo true false false rest gs).2)))
              = some node
            rw [lookupNode_cons_some part rest _ i
              (findIdxA_set _ children i _ hidx hp2)]
            rw [getD_set_self children i _ hlt]
            rw [if_neg hrest]
            rw [if_pos (by rw [FsNode.isDir_setChildren]; exact hdir)]
            rw [FsNode.childrenOpt_setChildren]
            exact hrec.1
        · rw [if_neg hdir] at h
          exact absurd h (by simp)
/-- `_find_node` only mutates the cached tree: descriptor table and volume
bytes are untouched. -/
theorem findNode_frame (fs : FsState) (parts : List (List Nat))
    (a b c : Bool) :
    (findNode fs parts a b c).2.fdTable = fs.fdTable ∧
    (findNode fs parts a b c).2.vol = fs.vol := by
  cases h : fs.rootChildren with
  | none => simp [findNode, h]
  | some cs => simp [findNode, h]

/-- `_find_node_or_root` only mutates the cached tree. -/
theorem findNodeOrRoot_frame (fs : FsState) (parts : List (List Nat)) :
    (findNodeOrRoot fs parts).2.fdTable = fs.fdTable ∧
    (findNodeOrRoot fs parts).2.vol = fs.vol := by
  by_cases h : parts = []
  · simp [findNodeOrRoot, h]
  · have hf := findNode_frame fs parts false false false
    rw [findNodeOrRoot, if_neg h]
    cases hm : findNode fs parts false false false with
    | mk r fs1 =>
      rw [hm] at hf
      cases r with
      | ok n => exact hf
      | error e => exact hf
/-- C10 (amended): opening an existing, not-currently-open regular file
with `O_CREAT|O_EXCL` raises `AlreadyExists` (`EEXIST`), adds no file
descriptor and writes nothing to the volume — but it does *not* leave the
file-system state unchanged: the target node's `in_use` flag is `True`
after the failed call, because `openfd` runs
`_find_node(realpath, set_in_use=True)` *before* the exclusive-existence
check and the `EEXIST` raise skips the rollback.  The hypotheses spell out
"path of an existing regular file, not open": the flags parse with
`creating` and `exclusive` set, the descriptor table has no row for the
path, the parent lookup and both `_find_node` calls succeed, and the node
is not a directory. -/
theorem c10_amended_excl_open_leaks_in_use (fs : FsState)
    (parts : List (List Nat)) (flags : Nat) (sf : StatusFl)
    (truncating : Bool) (pn : Option FsNode) (node node2 : FsNode)
    (fs1 fs2 fs3 : FsState)
    (hne : parts ≠ [])
    (hpf : parseFlags flags = .ok (sf, true, true, truncating))
    (hw : ¬(sf.writable = true ∧ fs.writable = false))
    (hfd : fs.fdTable.find? (fun row => row.2.path == parts) = none)
    (hr : findNodeOrRoot fs parts.dropLast = (.ok pn, fs1))
    (hn : findNode fs1 parts false false false = (.ok node, fs2))
    (hdir : node.isDir = false)
    (hn2 : findNode fs2 parts true false false = (.ok node2, fs3)) :
    openfd fs parts flags = (.error (.osErr 17), fs3) ∧
    fs3.fdTable = fs.fdTable ∧ fs3.vol = fs.vol ∧
    lookupInUse fs3 parts = some true := by
  have hfr1 := findNodeOrRoot_frame fs parts.dropLast
  rw [hr] at hfr1
  have hfr2 := findNode_frame fs1 parts false false false
  rw [hn] at hfr2
  have hfr3 := findNode_frame fs2 parts true false false
  rw [hn2] at hfr3
  refine ⟨?_, ?_, ?_, ?_⟩
  · rw [openfd, if_neg hne]
    simp only [hpf]
    rw [if_neg hw]
    simp only [hfd, Option.map_none']
    simp only [hr]
    simp only [hn]
    rw [if_neg (by simp [hdir])]
    simp only [hn2]
    rw [openfdFinish, if_pos ⟨rfl, rfl⟩]
  · rw [hfr3.1, hfr2.1, hfr1.1]
  · rw [hfr3.2, hfr2.2, hfr1.2]
  · cases hrc : fs2.rootChildren with
    | none =>
      rw [findNode, hrc] at hn2
      exact absurd hn2 (by simp)
    | some cs2 =>
      rw [findNode, hrc] at hn2
      simp only [Prod.mk.injEq] at hn2
      obtain ⟨h1, h2⟩ := hn2
      obtain ⟨hl, hu⟩ := findNodeGo_setIn_lookup parts cs2 node2 h1
      rw [← h2]
      simp only [lookupInUse]
      rw [hl, Option.map_some', hu]
/-- Witness for the C10 hypotheses: on `fsC10`, opening `/A` with
`O_WRONLY|O_CREAT|O_EXCL` (flags 193) hits every hypothesis of the amended
theorem, and the conclusion exhibits the leaked `in_use` flag. -/
theorem c10_amended_witness :
    openfd fsC10 [[65]] 193 =
      (.error (.osErr 17),
       { rootChildren := some [.mk [65] false none true]
         fdTable := []
         writable := true
         vol := [7] }) ∧
    ({ rootChildren := some [.mk [65] false none true]
       fdTable := []
       writable := true
       vol := [7] } : FsState).fdTable = fsC10.fdTable ∧
    ({ rootChildren := some [.mk [65] false none true]
       fdTable := []
       writable := true
       vol := [7] } : FsState).vol = fsC10.vol ∧
    lookupInUse
      { rootChildren := some [.mk [65] false none true]
        fdTable := []
        writable := true
        vol := [7] } [[65]] = some true :=
  c10_amended_excl_open_leaks_in_use fsC10 [[65]] 193
    ⟨false, true, false⟩ false none (.mk [65] false none false)
    (.mk [65] false none true) fsC10 fsC10
    { rootChildren := some [.mk [65] false none true]
      fdTable := []
      writable := true
      vol := [7] }
    (by decide) rfl (by decide) rfl rfl rfl rfl rfl
/-- Little-endian integer value of a byte string
(`int.from_bytes(b, "little")`). -/
def leNum : List Nat → Nat
  | [] => 0
  | b :: bs => b + 256 * leNum bs

/-- Little-endian encoding `value.to_bytes(count, "little")` (count is the
second argument). -/
def leBytes : Nat → Nat → List Nat
  | _, 0 => []
  | n, c + 1 => n % 256 :: leBytes (n / 256) c

/-- The byte-string slice `l[a : a+c]`. -/
def sliceB (a c : Nat) (l : List Nat) : List Nat := (l.drop a).take c

/-- The state of a `Fat` object (`fat/fat.py`): the constructor arguments
it keeps plus the single-window buffer `(buffer, sector_offset, altered)`
(`bufOff = none` models the initial dummy offset `-1`) and the volume
bytes it reads and writes. -/
structure FatSt where
  fatType : FatKind
  lss : Nat
  fatSize : Nat
  fatCount : Nat
  mainFat : Nat
  regionStart : Nat
  entries : Nat
  writable : Bool
  vol : List Nat
  buffer : List Nat
  bufOff : Option Nat
  altered : Bool
deriving DecidableEq, Repr

/-- Sectors held by the buffer: two for FAT12 (so an entry never spans a
buffer boundary), one otherwise. -/
def buffSectors : FatKind → Nat
  | .fat12 => 2
  | _ => 1

/-- `FatType.value`: bits per FAT entry. -/
def fatBits : FatKind → Nat
  | .fat12 => 12
  | .fat16 => 16
  | .fat32 => 32

/-- `Fat._get_io_info(key)`: `(sector_offset, bytes_offset_sector,
byte_count)`. -/
def getIoInfo (t : FatKind) (lss key : Nat) : Nat × Nat × Nat :=
  let bytesOffset := match t with
    | .fat12 => key + key / 2
    | .fat16 => key * 2
    | .fat32 => key * 4
  let byteCount := match t with
    | .fat32 => 4
    | _ => 2
  (bytesOffset / lss, bytesOffset % lss, byteCount)

/-- `Fat._check_cluster_key`. -/
def checkClusterKey (st : FatSt) (key : Nat) : Except PyErr Unit :=
  if key < st.entries then .ok () else .error .indexError

/-- `Fat._check_cluster_value`. -/
def checkClusterValue (st : FatSt) (v : Nat) : Except PyErr Unit :=
  if v ≤ clusterEoc st.fatType then .ok () else .error .valueError

/-- The FAT start sectors `fat_starts` (constructor, lines 50-52). -/
def fatStarts (st : FatSt) : List Nat :=
  (List.range st.fatCount).map (fun i => st.regionStart + i * st.fatSize)

/-- The `for fat_start in self._fat_starts` loop of `Fat.flush`: write the
buffer at `fat_start + sector_offset` of every FAT copy, in order. -/
def writeFatsGo (lss off : Nat) (b : List Nat) :
    List Nat → List Nat → Except PyErr (List Nat)
  | [], vol => .ok vol
  | s :: rest, vol =>
    match volWriteAt vol lss (s + off) b with
    | .error e => .error e
    | .ok v1 => writeFatsGo lss off b rest v1

/-- `Fat.flush` (lines 162-170): write the buffer to all FAT copies if it
was altered.  (`altered` with no valid window never occurs: the initial
buffer is unaltered.) -/
def flushF (st : FatSt) : Except PyErr FatSt :=
  if st.altered = true then
    match st.bufOff with
    | none => .error .notModelled
    | some off =>
      match writeFatsGo st.lss off st.buffer (fatStarts st) st.vol with
      | .error e => .error e
      | .ok vol1 => .ok { st with vol := vol1, altered := false }
  else .ok st

/-- `Fat._ensure_buffer(sector_offset)` (lines 135-160). -/
def ensureBuffer (st : FatSt) (off : Nat) : Except PyErr FatSt :=
  if st.fatSize ≤ off then .error .valueError
  else if st.bufOff = some off then .ok st
  else
    match flushF st with
    | .error e => .error e
    | .ok st1 =>
      match volReadAt st1.vol st1.lss
          (st1.regionStart + st1.mainFat * st1.fatSize + off)
          (buffSectors st1.fatType) with
      | .error e => .error e
      | .ok b =>
        .ok { st1 with
          buffer := b
          bufOff := some off
          altered := false }

/-- `Fat.__getitem__(key)` (lines 190-210). -/
def getItemF (st : FatSt) (key : Nat) : Except PyErr (FatSt × Nat) :=
  match checkClusterKey st key with
  | .error e => .error e
  | .ok _ =>
    let io := getIoInfo st.fatType st.lss key
    match ensureBuffer st io.1 with
    | .error e => .error e
    | .ok st1 =>
      let value := leNum (sliceB io.2.1 io.2.2 st1.buffer)
      match st.fatType with
      | .fat12 =>
        .ok (st1, if key &&& 1 ≠ 0 then value >>> 4 else value &&& 0x0FFF)
      | .fat32 => .ok (st1, value &&& 0x0FFFFFFF)
      | .fat16 => .ok (st1, value)

/-- `Fat.__setitem__(key, value)` (lines 212-241). -/
def setItemF (st : FatSt) (key value : Nat) : Except PyErr FatSt :=
  if st.writable = false then .error .valueError
  else
    match checkClusterKey st key with
    | .error e => .error e
    | .ok _ =>
      match checkClusterValue st value with
      | .error e => .error e
      | .ok _ =>
        let io := getIoInfo st.fatType st.lss key
        match ensureBuffer st io.1 with
        | .error e => .error e
        | .ok st1 =>
          let oldValue := leNum (sliceB io.2.1 io.2.2 st1.buffer)
          let v1 := match st.fatType with
            | .fat12 =>
              if key &&& 1 ≠ 0 then (oldValue &&& 0x000F) ||| (value <<< 4)
              else (oldValue &&& 0xF000) ||| (value &&& 0x0FFF)
            | .fat32 => (oldValue &&& 0xF0000000) ||| value
            | .fat16 => value
          .ok { st1 with
            buffer := st1.buffer.take io.2.1 ++ leBytes v1 io.2.2
              ++ st1.buffer.drop (io.2.1 + io.2.2)
            bufOff := some io.1
            altered := true }

/-- `Fat.__init__` (lines 44-97): the validity checks, the initial buffer
load (`_ensure_buffer(0)`) and the media-descriptor check (`self[0] &
0xFF`). -/
def mkFatF (vol : List Nat) (lss : Nat) (t : FatKind)
    (fatSize regionSize regionStart totalClusters mediaType mainFat : Nat)
    (writable : Bool) : Except PyErr FatSt :=
  let fatCount := regionSize / fatSize
  let entries := totalClusters + 2
  if badCluster t + 1 < entries then .error .valueError
  else if fatSize * lss < (entries * fatBits t - 1) / 8 + 1 then
    .error .valueError
  else if ¬ mainFat < fatCount then .error .valueError
  else
    let st0 : FatSt := ⟨t, lss, fatSize, fatCount, mainFat, regionStart,
      entries, writable, vol, [], none, false⟩
    match ensureBuffer st0 0 with
    | .error e => .error e
    | .ok st1 =>
      match getItemF st1 0 with
      | .error e => .error e
      | .ok (st2, v0) =>
        if v0 &&& 0xFF ≠ mediaType then .error .validationError
        else .ok st2

/-- The raw little-endian integer stored on the volume for FAT copy `i`,
entry `key` (observer used to state what `flush` wrote). -/
def rawStored (t : FatKind) (lss regionStart fatSize : Nat) (vol : List Nat)
    (i key : Nat) : Nat :=
  let io := getIoInfo t lss key
  leNum (sliceB ((regionStart + i * fatSize + io.1) * lss + io.2.1)
    io.2.2 vol)

/-- The decoded FAT entry value stored on the volume for copy `i`, entry
`key`: the raw value through `__getitem__`'s masking. -/
def decodeStored (t : FatKind) (lss regionStart fatSize : Nat)
    (vol : List Nat) (i key : Nat) : Nat :=
  let raw := rawStored t lss regionStart fatSize vol i key
  match t with
  | .fat12 => if key &&& 1 ≠ 0 then raw >>> 4 else raw &&& 0x0FFF
  | .fat32 => raw &&& 0x0FFFFFFF
  | .fat16 => raw
theorem leBytes_length : ∀ (c n : Nat), (leBytes n c).length = c := by
  intro c
  induction c with
  | zero => intro n; rfl
  | succ c ih => intro n; simp [leBytes, ih]

theorem leNum_leBytes : ∀ (c n : Nat), leNum (leBytes n c) = n % 256 ^ c := by
  intro c
  induction c with
  | zero => intro n; simp [leBytes, leNum, Nat.mod_one]
  | succ c ih =>
    intro n
    rw [leBytes, leNum, ih]
    rw [pow_succ, mul_comm (256 ^ c) 256, Nat.mod_mul]

theorem leNum_leBytes_of_lt (c n : Nat) (h : n < 256 ^ c) :
    leNum (leBytes n c) = n := by
  rw [leNum_leBytes, Nat.mod_eq_of_lt h]

theorem sliceB_length (a c : Nat) (l : List Nat) (h : a + c ≤ l.length) :
    (sliceB a c l).length = c := by
  simp [sliceB]
  omega

theorem sliceB_append_inside (pre b post : List Nat) (q c : Nat)
    (h : q + c ≤ b.length) :
    sliceB (pre.length + q) c (pre ++ b ++ post) = sliceB q c b := by
  unfold sliceB
  rw [List.append_assoc, List.drop_append q,
    List.drop_append_of_le_length (by omega),
    List.take_append_of_le_length (by simp; omega)]

theorem sliceB_sliceB (a d q c : Nat) (l : List Nat) (h : q + c ≤ d) :
    sliceB q c (sliceB a d l) = sliceB (a + q) c l := by
  unfold sliceB
  rw [List.drop_take, List.take_take, List.drop_drop,
    Nat.min_eq_left (by omega)]

theorem sliceB_splice_before (orig b : List Nat) (p a c : Nat)
    (hp : p ≤ orig.length) (h : a + c ≤ p) :
    sliceB a c (orig.take p ++ b ++ orig.drop (p + b.length)) =
      sliceB a c orig := by
  unfold sliceB
  rw [List.append_assoc,
    List.drop_append_of_le_length (by simp; omega),
    List.take_append_of_le_length (by simp; omega),
    List.drop_take, List.take_take, Nat.min_eq_left (by omega)]

theorem sliceB_splice_after (orig b : List Nat) (p a c : Nat)
    (hp : p ≤ orig.length) (h : p + b.length ≤ a) :
    sliceB a c (orig.take p ++ b ++ orig.drop (p + b.length)) =
      sliceB a c orig := by
  unfold sliceB
  have hlen : (orig.take p ++ b).length = p + b.length := by simp; omega
  have ha : a = (orig.take p ++ b).length + (a - p - b.length) := by
    rw [hlen]; omega
  rw [List.append_assoc, ← List.append_assoc, ha, List.drop_append,
    List.drop_drop]
  congr 2
  omega

theorem splice_length (orig b : List Nat) (p : Nat)
    (h : p + b.length ≤ orig.length) :
    (orig.take p ++ b ++ orig.drop (p + b.length)).length = orig.length := by
  simp
  omega

/-- Successful in-bounds `Volume.write_at` is a byte splice. -/
theorem volWriteAt_ok (vol : List Nat) (lss pos m : Nat) (b : List Nat)
    (hl : 0 < lss) (hm : 0 < m) (hb : b.length = m * lss)
    (hpos : pos + m ≤ vol.length / lss) :
    volWriteAt vol lss pos b =
      .ok (vol.take (pos * lss) ++ b ++ vol.drop (pos * lss + b.length)) := by
  have h0 : b.length ≠ 0 := by
    rw [hb]; positivity
  have h1 : pos < vol.length / lss := by omega
  have h2 : (b.length - 1) / lss + 1 ≤ vol.length / lss - pos := by
    rw [hb]
    have hlt : (m * lss - 1) / lss < m := by
      rw [Nat.div_lt_iff_lt_mul hl]
      have : 0 < m * lss := by positivity
      omega
    omega
  have h3 : b.length % lss = 0 := by
    rw [hb]; exact Nat.mul_mod_left m lss
  rw [volWriteAt, if_neg h0, if_neg (by omega), if_neg (by omega),
    if_neg (by omega)]

/-- Successful in-bounds `Volume.read_at` is a byte slice. -/
theorem volReadAt_ok (vol : List Nat) (lss pos sectors : Nat)
    (hl : 0 < lss) (hs : 0 < sectors) (hpos : pos + sectors ≤ vol.length / lss) :
    volReadAt vol lss pos sectors = .ok (sliceB (pos * lss) (sectors * lss) vol) := by
  rw [volReadAt, if_neg (by omega), if_neg (by omega)]
  rfl
theorem mask32_decode (old v : Nat) (hv : v < 2 ^ 28) :
    ((old &&& 0xF0000000) ||| v) &&& 0x0FFFFFFF = v := by
  apply Nat.eq_of_testBit_eq
  intro i
  have h1 : (0xF0000000 : Nat) = 15 <<< 28 := by norm_num [Nat.shiftLeft_eq]
  have h2 : (0x0FFFFFFF : Nat) = 2 ^ 28 - 1 := by norm_num
  rw [Nat.testBit_and, Nat.testBit_or, Nat.testBit_and, h1, h2,
    Nat.testBit_shiftLeft, Nat.testBit_two_pow_sub_one]
  by_cases h : i < 28
  · simp [h, Nat.not_le.mpr h]
  · have hvb : v.testBit i = false :=
      Nat.testBit_lt_two_pow
        (lt_of_lt_of_le hv (Nat.pow_le_pow_right (by norm_num) (by omega)))
    simp [h, hvb]

theorem mask12_odd_decode (old v : Nat) :
    ((old &&& 0x000F) ||| (v <<< 4)) >>> 4 = v := by
  apply Nat.eq_of_testBit_eq
  intro i
  have h1 : (0x000F : Nat) = 2 ^ 4 - 1 := by norm_num
  rw [Nat.testBit_shiftRight, Nat.testBit_or, Nat.testBit_and, h1,
    Nat.testBit_two_pow_sub_one, Nat.testBit_shiftLeft]
  simp [show ¬(4 + i < 4) by omega, show 4 ≤ 4 + i by omega,
    show 4 + i - 4 = i by omega]

theorem mask12_even_decode (old v : Nat) :
    ((old &&& 0xF000) ||| (v &&& 0x0FFF)) &&& 0x0FFF = v &&& 0x0FFF := by
  apply Nat.eq_of_testBit_eq
  intro i
  have h1 : (0xF000 : Nat) = 15 <<< 12 := by norm_num [Nat.shiftLeft_eq]
  have h2 : (0x0FFF : Nat) = 2 ^ 12 - 1 := by norm_num
  rw [Nat.testBit_and, Nat.testBit_or, Nat.testBit_and, Nat.testBit_and, h1,
    h2, Nat.testBit_shiftLeft, Nat.testBit_two_pow_sub_one]
  by_cases h : i < 12
  · simp [h, Nat.not_le.mpr h]
  · simp [h]

theorem mask12_small (v : Nat) (hv : v < 2 ^ 12) : v &&& 0x0FFF = v := by
  have h2 : (0x0FFF : Nat) = 2 ^ 12 - 1 := by norm_num
  rw [h2, Nat.and_pow_two_sub_one_eq_mod, Nat.mod_eq_of_lt hv]

theorem mask16_small (v : Nat) (hv : v < 2 ^ 16) : v &&& 0xFFFF = v := by
  have h2 : (0xFFFF : Nat) = 2 ^ 16 - 1 := by norm_num
  rw [h2, Nat.and_pow_two_sub_one_eq_mod, Nat.mod_eq_of_lt hv]

theorem mask28_small (v : Nat) (hv : v < 2 ^ 28) : v &&& 0x0FFFFFFF = v := by
  have h2 : (0x0FFFFFFF : Nat) = 2 ^ 28 - 1 := by norm_num
  rw [h2, Nat.and_pow_two_sub_one_eq_mod, Nat.mod_eq_of_lt hv]

theorem merged12_odd_lt (old v : Nat) (hv : v < 2 ^ 12) :
    (old &&& 0x000F) ||| (v <<< 4) < 2 ^ 16 := by
  apply Nat.or_lt_two_pow
  · calc old &&& 0x000F ≤ 0x000F := Nat.and_le_right
      _ < 2 ^ 16 := by norm_num
  · rw [Nat.shiftLeft_eq]
    calc v * 2 ^ 4 < 2 ^ 12 * 2 ^ 4 := by
          exact (Nat.mul_lt_mul_right (by norm_num)).mpr hv
      _ = 2 ^ 16 := by norm_num

theorem merged12_even_lt (old v : Nat) :
    (old &&& 0xF000) ||| (v &&& 0x0FFF) < 2 ^ 16 := by
  apply Nat.or_lt_two_pow
  · calc old &&& 0xF000 ≤ 0xF000 := Nat.and_le_right
      _ < 2 ^ 16 := by norm_num
  · calc v &&& 0x0FFF ≤ 0x0FFF := Nat.and_le_right
      _ < 2 ^ 16 := by norm_num

theorem merged32_lt (old v : Nat) (hv : v < 2 ^ 28) :
    (old &&& 0xF0000000) ||| v < 2 ^ 32 := by
  apply Nat.or_lt_two_pow
  · calc old &&& 0xF0000000 ≤ 0xF0000000 := Nat.and_le_right
      _ < 2 ^ 32 := by norm_num
  · calc v < 2 ^ 28 := hv
      _ < 2 ^ 32 := by norm_num
/-- Location facts for a FAT entry's bytes: the entry lies inside the FAT
copy, inside the buffer window, and its window is a valid offset. -/
theorem getIoInfo_spec (t : FatKind) (lss key entries fatSize : Nat)
    (hl : 0 < lss) (hdiv : 4 ∣ lss) (hkey : key < entries)
    (hfit : (entries * fatBits t - 1) / 8 + 1 ≤ fatSize * lss) :
    (getIoInfo t lss key).1 * lss + (getIoInfo t lss key).2.1 +
        (getIoInfo t lss key).2.2 ≤ fatSize * lss ∧
    (getIoInfo t lss key).2.1 + (getIoInfo t lss key).2.2 ≤
        buffSectors t * lss ∧
    (getIoInfo t lss key).1 < fatSize := by
  obtain ⟨l4, hl4⟩ := hdiv
  have hlss4 : 4 ≤ lss := by omega
  cases t with
  | fat12 =>
    simp only [getIoInfo, fatBits, buffSectors] at hfit ⊢
    have hb2 : key + key / 2 + 2 ≤ fatSize * lss := by omega
    have hdm := Nat.div_add_mod (key + key / 2) lss
    have hmlt : (key + key / 2) % lss < lss := Nat.mod_lt _ hl
    have hso : (key + key / 2) / lss < fatSize := by
      rw [Nat.div_lt_iff_lt_mul hl]
      omega
    have hc : (key + key / 2) / lss * lss = lss * ((key + key / 2) / lss) :=
      Nat.mul_comm ..
    exact ⟨by omega, by omega, hso⟩
  | fat16 =>
    simp only [getIoInfo, fatBits, buffSectors] at hfit ⊢
    have hb2 : key * 2 + 2 ≤ fatSize * lss := by omega
    have hdm := Nat.div_add_mod (key * 2) lss
    have hmlt : (key * 2) % lss < lss := Nat.mod_lt _ hl
    have hdvd : 2 ∣ (key * 2) % lss :=
      (Nat.dvd_mod_iff ⟨2 * l4, by omega⟩).mpr ⟨key, by omega⟩
    have hso : (key * 2) / lss < fatSize := by
      rw [Nat.div_lt_iff_lt_mul hl]
      omega
    have hc : (key * 2) / lss * lss = lss * ((key * 2) / lss) :=
      Nat.mul_comm ..
    exact ⟨by omega, by omega, hso⟩
  | fat32 =>
    simp only [getIoInfo, fatBits, buffSectors] at hfit ⊢
    have hb2 : key * 4 + 4 ≤ fatSize * lss := by omega
    have hdm := Nat.div_add_mod (key * 4) lss
    have hmlt : (key * 4) % lss < lss := Nat.mod_lt _ hl
    have hdvd : 4 ∣ (key * 4) % lss :=
      (Nat.dvd_mod_iff ⟨l4, hl4⟩).mpr ⟨key, by omega⟩
    have hso : (key * 4) / lss < fatSize := by
      rw [Nat.div_lt_iff_lt_mul hl]
      omega
    have hc : (key * 4) / lss * lss = lss * ((key * 4) / lss) :=
      Nat.mul_comm ..
    exact ⟨by omega, by omega, hso⟩

/-- A successful `Volume.write_at` of a nonempty byte string is the
in-bounds splice. -/
theorem volWriteAt_ok_inv (vol : List Nat) (lss pos : Nat) (b v1 : List Nat)
    (hb : b.length ≠ 0) (hl : 0 < lss)
    (h : volWriteAt vol lss pos b = .ok v1) :
    v1 = vol.take (pos * lss) ++ b ++ vol.drop (pos * lss + b.length) ∧
    pos * lss + b.length ≤ vol.length := by
  unfold volWriteAt at h
  rw [if_neg hb] at h
  split_ifs at h with h1 h2 h3
  cases h
  refine ⟨rfl, ?_⟩
  have hn1 : 1 ≤ b.length := by omega
  have hdm1 := Nat.div_add_mod (b.length - 1) lss
  have hm1 : (b.length - 1) % lss < lss := Nat.mod_lt _ hl
  have e1 : ((b.length - 1) / lss + 1) * lss =
      lss * ((b.length - 1) / lss) + lss := by ring
  have e2 : (pos + ((b.length - 1) / lss + 1)) * lss =
      pos * lss + ((b.length - 1) / lss + 1) * lss := by ring
  have e3 : (pos + ((b.length - 1) / lss + 1)) * lss ≤
      vol.length / lss * lss :=
    Nat.mul_le_mul_right lss (by omega)
  have e4 : vol.length / lss * lss ≤ vol.length := Nat.div_mul_le_self _ _
  omega

/-- The flush loop succeeds and preserves the volume length when every
window is in bounds. -/
theorem writeFatsGo_ok (lss off m : Nat) (b : List Nat)
    (hl : 0 < lss) (hm : 0 < m) (hb : b.length = m * lss) :
    ∀ (starts : List Nat) (vol : List Nat),
      (∀ s ∈ starts, s + off + m ≤ vol.length / lss) →
      ∃ v', writeFatsGo lss off b starts vol = .ok v' ∧
        v'.length = vol.length := by
  intro starts
  induction starts with
  | nil => intro vol _; exact ⟨vol, rfl, rfl⟩
  | cons s rest ih =>
    intro vol hbd
    have hs := hbd s (List.mem_cons_self s rest)
    have hw := volWriteAt_ok vol lss (s + off) m b hl hm hb hs
    have hle : (s + off) * lss + b.length ≤ vol.length := by
      have h6 : (s + off + m) * lss ≤ vol.length / lss * lss :=
        Nat.mul_le_mul_right lss hs
      have h7 : vol.length / lss * lss ≤ vol.length :=
        Nat.div_mul_le_self _ _
      have h8 : (s + off + m) * lss = (s + off) * lss + m * lss := by ring
      omega
    have hlen := splice_length vol b ((s + off) * lss) hle
    obtain ⟨v', hv', hvlen⟩ := ih
      (vol.take ((s + off) * lss) ++ b ++
        vol.drop ((s + off) * lss + b.length))
      (by intro s2 hs2; rw [hlen]; exact hbd s2 (List.mem_cons_of_mem s hs2))
    refine ⟨v', ?_, by rw [hvlen, hlen]⟩
    rw [writeFatsGo, hw]
    exact hv'

/-- Bytes disjoint from every written window are unchanged by the flush
loop. -/
theorem writeFatsGo_preserve (lss off : Nat) (b : List Nat)
    (hb : b.length ≠ 0) (hl : 0 < lss) (a c : Nat) :
    ∀ (starts : List Nat) (vol v' : List Nat),
      writeFatsGo lss off b starts vol = .ok v' →
      (∀ s ∈ starts, a + c ≤ (s + off) * lss ∨
        (s + off) * lss + b.length ≤ a) →
      sliceB a c v' = sliceB a c vol := by
  intro starts
  induction starts with
  | nil =>
    intro vol v' h _
    cases h
    rfl
  | cons s rest ih =>
    intro vol v' h hdisj
    rw [writeFatsGo] at h
    cases hw : volWriteAt vol lss (s + off) b with
    | error e => rw [hw] at h; exact absurd h (by simp)
    | ok v1 =>
      rw [hw] at h
      obtain ⟨hshape, hbound⟩ := volWriteAt_ok_inv vol lss (s + off) b v1
        hb hl hw
      have hrec := ih v1 v' h
        (fun s2 hs2 => hdisj s2 (List.mem_cons_of_mem s hs2))
      rw [hrec, hshape]
      rcases hdisj s (List.mem_cons_self s rest) with hbefore | hafter
      · exact sliceB_splice_before vol b ((s + off) * lss) a c
          (by omega) hbefore
      · exact sliceB_splice_after vol b ((s + off) * lss) a c
          (by omega) hafter
theorem writeFatsGo_append (lss off : Nat) (b : List Nat) :
    ∀ (l1 l2 : List Nat) (vol : List Nat),
      writeFatsGo lss off b (l1 ++ l2) vol =
        match writeFatsGo lss off b l1 vol with
        | .error e => .error e
        | .ok v1 => writeFatsGo lss off b l2 v1 := by
  intro l1
  induction l1 with
  | nil => intro l2 vol; rfl
  | cons s rest ih =>
    intro l2 vol
    rw [List.cons_append, writeFatsGo, writeFatsGo]
    cases volWriteAt vol lss (s + off) b with
    | error e => rfl
    | ok v1 => exact ih l2 v1

/-- After the flush loop over all FAT copies, the bytes of entry location
`q` (relative to the window) in copy `i` equal the buffer's. -/
theorem writeFats_entry (lss off m regionStart fatSize n i q c : Nat)
    (b vol v' : List Nat)
    (hl : 0 < lss) (hm : 0 < m) (hb : b.length = m * lss)
    (hi : i < n) (hq : q + c ≤ b.length)
    (hoff : off * lss + q + c ≤ fatSize * lss)
    (h : writeFatsGo lss off b
        ((List.range n).map (fun j => regionStart + j * fatSize)) vol
      = .ok v') :
    sliceB ((regionStart + i * fatSize + off) * lss + q) c v' =
      sliceB q c b := by
  have hdec : List.range n =
      (List.range i ++ [i]) ++ (List.range (n - i - 1)).map (i + 1 + ·) := by
    have h1 : n = (i + 1) + (n - i - 1) := by omega
    rw [h1, List.range_add, List.range_succ]
    have h2 : i + 1 + (n - i - 1) - i - 1 = n - i - 1 := by omega
    rw [h2]
  rw [hdec, List.map_append, writeFatsGo_append] at h
  cases h1 : writeFatsGo lss off b
      ((List.range i ++ [i]).map (fun j => regionStart + j * fatSize)) vol
    with
  | error e => rw [h1] at h; exact absurd h (by simp)
  | ok v1 =>
    rw [h1] at h
    rw [List.map_append] at h1
    rw [writeFatsGo_append] at h1
    cases h0 : writeFatsGo lss off b
        ((List.range i).map (fun j => regionStart + j * fatSize)) vol with
    | error e => rw [h0] at h1; exact absurd h1 (by simp)
    | ok v0 =>
      rw [h0] at h1
      simp only [List.map_cons, List.map_nil, writeFatsGo] at h1
      cases hw : volWriteAt v0 lss (regionStart + i * fatSize + off) b with
      | error e => rw [hw] at h1; exact absurd h1 (by simp)
      | ok vppp =>
        rw [hw] at h1
        cases h1
        have hbne : b.length ≠ 0 := by
          rw [hb]
          exact Nat.mul_ne_zero (by omega) (by omega)
        obtain ⟨hshape, hbound⟩ := volWriteAt_ok_inv v0 lss
          (regionStart + i * fatSize + off) b v1 hbne hl hw
        have hpres := writeFatsGo_preserve lss off b hbne hl
          ((regionStart + i * fatSize + off) * lss + q) c
          ((List.range (n - i - 1)).map (i + 1 + ·) |>.map
            (fun j => regionStart + j * fatSize)) v1 v' h ?_
        · rw [hpres, hshape]
          have htl : (v0.take ((regionStart + i * fatSize + off) * lss)).length
              = (regionStart + i * fatSize + off) * lss := by
            rw [List.length_take]
            omega
          calc sliceB ((regionStart + i * fatSize + off) * lss + q) c
                (v0.take ((regionStart + i * fatSize + off) * lss) ++ b ++
                  v0.drop ((regionStart + i * fatSize + off) * lss + b.length))
              = sliceB ((v0.take ((regionStart + i * fatSize + off) * lss)).length + q) c
                (v0.take ((regionStart + i * fatSize + off) * lss) ++ b ++
                  v0.drop ((regionStart + i * fatSize + off) * lss + b.length)) := by
                rw [htl]
            _ = sliceB q c b := sliceB_append_inside _ b _ q c hq
        · intro s2 hs2
          left
          rw [List.map_map] at hs2
          obtain ⟨j, hj, hjs⟩ := List.mem_map.mp hs2
          have hjs2 : s2 = regionStart + (i + 1 + j) * fatSize := by
            rw [← hjs]; rfl
          subst hjs2
          have e1 : (regionStart + (i + 1 + j) * fatSize + off) * lss =
              (regionStart + i * fatSize + off) * lss +
                (1 + j) * fatSize * lss := by ring
          have e2 : fatSize * lss ≤ (1 + j) * fatSize * lss := by
            have e3 : fatSize ≤ (1 + j) * fatSize :=
              Nat.le_mul_of_pos_left fatSize (by omega)
            exact Nat.mul_le_mul_right lss e3
          omega
theorem buffSectors_pos (t : FatKind) : 0 < buffSectors t := by
  cases t <;> simp [buffSectors]

theorem flushF_noop (st : FatSt) (halt : st.altered = false) :
    flushF st = .ok st := by
  rw [flushF, if_neg (by rw [halt]; simp)]

theorem flushF_write (st : FatSt) (off : Nat) (vol1 : List Nat)
    (halt : st.altered = true) (hbo : st.bufOff = some off)
    (hok : writeFatsGo st.lss off st.buffer (fatStarts st) st.vol = .ok vol1) :
    flushF st = .ok { st with vol := vol1, altered := false } := by
  rw [flushF, if_pos halt]
  simp only [hbo, hok]

theorem ensureBuffer_noop (st : FatSt) (off : Nat) (hoff : off < st.fatSize)
    (hbuf : st.bufOff = some off) : ensureBuffer st off = .ok st := by
  rw [ensureBuffer, if_neg (by omega), if_pos hbuf]

theorem ensureBuffer_load (st : FatSt) (off : Nat)
    (hoff : off < st.fatSize) (hne : ¬ st.bufOff = some off)
    (halt : st.altered = false) (hl : 0 < st.lss)
    (hpos : st.regionStart + st.mainFat * st.fatSize + off +
      buffSectors st.fatType ≤ st.vol.length / st.lss) :
    ensureBuffer st off = .ok { st with
      buffer := sliceB
        ((st.regionStart + st.mainFat * st.fatSize + off) * st.lss)
        (buffSectors st.fatType * st.lss) st.vol
      bufOff := some off
      altered := false } := by
  rw [ensureBuffer, if_neg (by omega), if_neg hne]
  simp only [flushF_noop st halt]
  simp only [volReadAt_ok st.vol st.lss _ _ hl (buffSectors_pos st.fatType)
    hpos]
theorem window_pos_le (lss fatSize fatCount regionStart mainFat off bufSecs
    L : Nat) (hl : 0 < lss) (hfs : 0 < fatSize) (hmain : mainFat < fatCount)
    (hoff : off < fatSize)
    (hvol : (regionStart + fatCount * fatSize + bufSecs - 1) * lss ≤ L) :
    regionStart + mainFat * fatSize + off + bufSecs ≤ L / lss := by
  rw [Nat.le_div_iff_mul_le hl]
  have e0 : (mainFat + 1) * fatSize = mainFat * fatSize + fatSize := by ring
  have e1 : (mainFat + 1) * fatSize ≤ fatCount * fatSize :=
    Nat.mul_le_mul_right fatSize (by omega)
  have e3 : regionStart + mainFat * fatSize + off + bufSecs ≤
      regionStart + fatCount * fatSize + bufSecs - 1 := by omega
  calc (regionStart + mainFat * fatSize + off + bufSecs) * lss
      ≤ (regionStart + fatCount * fatSize + bufSecs - 1) * lss :=
        Nat.mul_le_mul_right lss e3
    _ ≤ L := hvol

theorem getIoInfo_zero (t : FatKind) (lss : Nat) :
    (getIoInfo t lss 0).1 = 0 ∧ (getIoInfo t lss 0).2.1 = 0 := by
  cases t <;> simp [getIoInfo]

/-- The value masking of `Fat.__getitem__` (lines 201-210), as an
observer. -/
def decodeVal (t : FatKind) (key value : Nat) : Nat :=
  match t with
  | .fat12 => if key &&& 1 ≠ 0 then value >>> 4 else value &&& 0x0FFF
  | .fat32 => value &&& 0x0FFFFFFF
  | .fat16 => value

theorem decodeStored_eq (t : FatKind) (lss regionStart fatSize : Nat)
    (vol : List Nat) (i key : Nat) :
    decodeStored t lss regionStart fatSize vol i key =
      decodeVal t key (rawStored t lss regionStart fatSize vol i key) := by
  cases t <;> rfl

/-- `__getitem__` when the buffer already holds the entry's window:
the state is unchanged and the result decodes the buffer bytes. -/
theorem getItemF_noop_val (st : FatSt) (key : Nat)
    (hkey : key < st.entries)
    (hoff : (getIoInfo st.fatType st.lss key).1 < st.fatSize)
    (hbuf : st.bufOff = some (getIoInfo st.fatType st.lss key).1) :
    getItemF st key = .ok (st, decodeVal st.fatType key
      (leNum (sliceB (getIoInfo st.fatType st.lss key).2.1
        (getIoInfo st.fatType st.lss key).2.2 st.buffer))) := by
  have hck : checkClusterKey st key = .ok () := by
    rw [checkClusterKey, if_pos hkey]
  rw [getItemF]
  simp only [hck, ensureBuffer_noop st _ hoff hbuf, decodeVal]
  cases ht : st.fatType <;> rfl
/-- `__getitem__` when the buffer holds the window of the main FAT copy
containing the entry: the result is the decoded on-volume value. -/
theorem getItemF_decode (st : FatSt) (key : Nat)
    (hl : 0 < st.lss) (hdiv : 4 ∣ st.lss) (hkey : key < st.entries)
    (hfit : (st.entries * fatBits st.fatType - 1) / 8 + 1 ≤
      st.fatSize * st.lss)
    (hbuf : st.bufOff = some (getIoInfo st.fatType st.lss key).1)
    (hwin : st.buffer = sliceB ((st.regionStart + st.mainFat * st.fatSize +
      (getIoInfo st.fatType st.lss key).1) * st.lss)
      (buffSectors st.fatType * st.lss) st.vol) :
    getItemF st key = .ok (st,
      decodeStored st.fatType st.lss st.regionStart st.fatSize st.vol
        st.mainFat key) := by
  obtain ⟨hspan, hwinb, hso⟩ := getIoInfo_spec st.fatType st.lss key
    st.entries st.fatSize hl hdiv hkey hfit
  rw [getItemF_noop_val st key hkey hso hbuf, hwin]
  rw [sliceB_sliceB _ _ _ _ _ hwinb]
  rw [decodeStored_eq]
  rfl

/-- `Fat.__init__` succeeds on a well-formed, large-enough volume whose
main copy's media-descriptor entry matches, and yields the fresh state
with the first window loaded. -/
theorem mkFatF_ok (vol : List Nat) (lss : Nat) (t : FatKind)
    (fatSize regionSize regionStart totalClusters mediaType mainFat : Nat)
    (writable : Bool)
    (hl : 0 < lss) (hdiv : 4 ∣ lss) (hfs : 0 < fatSize)
    (hcl : totalClusters + 2 ≤ badCluster t + 1)
    (hfit : ((totalClusters + 2) * fatBits t - 1) / 8 + 1 ≤ fatSize * lss)
    (hmain : mainFat < regionSize / fatSize)
    (hvol : (regionStart + regionSize / fatSize * fatSize + buffSectors t
      - 1) * lss ≤ vol.length)
    (hmedia : decodeStored t lss regionStart fatSize vol mainFat 0 &&& 0xFF
      = mediaType) :
    mkFatF vol lss t fatSize regionSize regionStart totalClusters mediaType
      mainFat writable =
      .ok ⟨t, lss, fatSize, regionSize / fatSize, mainFat, regionStart,
        totalClusters + 2, writable, vol,
        sliceB ((regionStart + mainFat * fatSize) * lss)
          (buffSectors t * lss) vol, some 0, false⟩ := by
  have hpos : regionStart + mainFat * fatSize + 0 + buffSectors t ≤
      vol.length / lss :=
    window_pos_le lss fatSize (regionSize / fatSize) regionStart mainFat 0
      (buffSectors t) vol.length hl hfs hmain (by omega) hvol
  simp only [mkFatF]
  rw [if_neg (by omega)]
  rw [if_neg (by omega)]
  rw [if_neg (by omega)]
  have hload := ensureBuffer_load ⟨t, lss, fatSize, regionSize / fatSize,
    mainFat, regionStart, totalClusters + 2, writable, vol, [], none,
    false⟩ 0 hfs (by simp) rfl hl hpos
  simp only [hload]
  have hget := getItemF_decode ⟨t, lss, fatSize, regionSize / fatSize,
    mainFat, regionStart, totalClusters + 2, writable, vol,
    sliceB ((regionStart + mainFat * fatSize + 0) * lss)
      (buffSectors t * lss) vol, some 0, false⟩ 0
    hl hdiv (Nat.zero_lt_succ _) hfit
    (by show (some 0 : Option Nat) = some (getIoInfo t lss 0).1
        rw [(getIoInfo_zero t lss).1])
    (by show sliceB ((regionStart + mainFat * fatSize + 0) * lss)
          (buffSectors t * lss) vol =
        sliceB ((regionStart + mainFat * fatSize +
          (getIoInfo t lss 0).1) * lss) (buffSectors t * lss) vol
        rw [(getIoInfo_zero t lss).1])
  simp only [hget]
  rw [if_neg (not_not_intro hmedia)]
  simp [Nat.add_zero]
/-- The 16/32-bit value `__setitem__` stores back into the buffer window
(lines 223-239), as an observer. -/
def mergedVal (t : FatKind) (key v old : Nat) : Nat :=
  match t with
  | .fat12 =>
    if key &&& 1 ≠ 0 then (old &&& 0x000F) ||| (v <<< 4)
    else (old &&& 0xF000) ||| (v &&& 0x0FFF)
  | .fat32 => (old &&& 0xF0000000) ||| v
  | .fat16 => v

theorem decodeVal_mergedVal (t : FatKind) (key v old : Nat)
    (hv : v ≤ clusterEoc t) :
    decodeVal t key (mergedVal t key v old) = v := by
  cases t with
  | fat12 =>
    have hv12 : v < 2 ^ 12 := by
      simp [clusterEoc] at hv
      omega
    by_cases hk : key &&& 1 ≠ 0
    · simp only [decodeVal, mergedVal, if_pos hk]
      exact mask12_odd_decode old v
    · simp only [decodeVal, mergedVal, if_neg hk]
      rw [mask12_even_decode, mask12_small v hv12]
  | fat16 => rfl
  | fat32 =>
    have hv32 : v < 2 ^ 28 := by
      simp [clusterEoc] at hv
      omega
    simp only [decodeVal, mergedVal]
    exact mask32_decode old v hv32

theorem mergedVal_lt (t : FatKind) (lss key v old : Nat)
    (hv : v ≤ clusterEoc t) :
    mergedVal t key v old < 256 ^ (getIoInfo t lss key).2.2 := by
  cases t with
  | fat12 =>
    have hv12 : v < 2 ^ 12 := by
      simp [clusterEoc] at hv
      omega
    by_cases hk : key &&& 1 ≠ 0
    · simp only [mergedVal, if_pos hk, getIoInfo]
      have := merged12_odd_lt old v hv12
      norm_num at this ⊢
      omega
    · simp only [mergedVal, if_neg hk, getIoInfo]
      have := merged12_even_lt old v
      norm_num at this ⊢
      omega
  | fat16 =>
    simp only [mergedVal, getIoInfo]
    simp [clusterEoc] at hv
    norm_num
    omega
  | fat32 =>
    have hv32 : v < 2 ^ 28 := by
      simp [clusterEoc] at hv
      omega
    simp only [mergedVal, getIoInfo]
    have := merged32_lt old v hv32
    norm_num at this ⊢
    omega

/-- `__setitem__` on a writable `Fat`: the entry's bytes in the buffer
window are replaced by the merged value's encoding and the buffer is
marked altered. -/
theorem setItemF_ok (st st1 : FatSt) (key v : Nat)
    (hw : st.writable = true) (hkey : key < st.entries)
    (hval : v ≤ clusterEoc st.fatType)
    (hens : ensureBuffer st (getIoInfo st.fatType st.lss key).1 = .ok st1) :
    setItemF st key v = .ok { st1 with
      buffer := st1.buffer.take (getIoInfo st.fatType st.lss key).2.1 ++
        leBytes (mergedVal st.fatType key v (leNum
          (sliceB (getIoInfo st.fatType st.lss key).2.1
            (getIoInfo st.fatType st.lss key).2.2 st1.buffer)))
          (getIoInfo st.fatType st.lss key).2.2 ++
        st1.buffer.drop ((getIoInfo st.fatType st.lss key).2.1 +
          (getIoInfo st.fatType st.lss key).2.2)
      bufOff := some (getIoInfo st.fatType st.lss key).1
      altered := true } := by
  have hck : checkClusterKey st key = .ok () := by
    rw [checkClusterKey, if_pos hkey]
  have hcv : checkClusterValue st v = .ok () := by
    rw [checkClusterValue, if_pos hval]
  rw [setItemF, if_neg (by rw [hw]; simp)]
  simp only [hck, hcv, hens, mergedVal]

/-- `__getitem__` through an `_ensure_buffer` that leaves a state whose
buffer is the window of the main copy: the result is the decoded
on-volume value. -/
theorem getItemF_decode2 (st st1 : FatSt) (key : Nat)
    (hl : 0 < st.lss) (hdiv : 4 ∣ st.lss) (hkey : key < st.entries)
    (hfit : (st.entries * fatBits st.fatType - 1) / 8 + 1 ≤
      st.fatSize * st.lss)
    (hens : ensureBuffer st (getIoInfo st.fatType st.lss key).1 = .ok st1)
    (hwin : st1.buffer = sliceB ((st.regionStart + st.mainFat * st.fatSize +
      (getIoInfo st.fatType st.lss key).1) * st.lss)
      (buffSectors st.fatType * st.lss) st1.vol) :
    getItemF st key = .ok (st1,
      decodeStored st.fatType st.lss st.regionStart st.fatSize st1.vol
        st.mainFat key) := by
  obtain ⟨hspan, hwinb, hso⟩ := getIoInfo_spec st.fatType st.lss key
    st.entries st.fatSize hl hdiv hkey hfit
  have hck : checkClusterKey st key = .ok () := by
    rw [checkClusterKey, if_pos hkey]
  rw [getItemF]
  simp only [hck, hens]
  rw [hwin, sliceB_sliceB _ _ _ _ _ hwinb, decodeStored_eq]
  cases ht : st.fatType <;> rfl
/-- C3 (amended): on every well-formed `Fat` over a large-enough volume,
`fat[key] = v; fat.flush()` succeeds, the entry's bytes of *every* FAT
copy decode to `v`, reading `fat[key]` back returns `v`, on FAT32 the
stored raw entry keeps the old top 4 bits, and re-constructing the `Fat`
from the flushed volume succeeds and reads back `v` *provided* the
media-descriptor entry still matches (writing entry 0 can break that
check, so the unconditional re-open of the original claim fails). -/
theorem c3_amended_set_flush (vol : List Nat) (lss : Nat) (t : FatKind)
    (fatSize regionSize regionStart totalClusters mediaType mainFat key v :
      Nat) (st : FatSt)
    (hl : 0 < lss) (hdiv : 4 ∣ lss) (hfs : 0 < fatSize)
    (hcl : totalClusters + 2 ≤ badCluster t + 1)
    (hfit : ((totalClusters + 2) * fatBits t - 1) / 8 + 1 ≤ fatSize * lss)
    (hmain : mainFat < regionSize / fatSize)
    (hvol : (regionStart + regionSize / fatSize * fatSize + buffSectors t
      - 1) * lss ≤ vol.length)
    (hmedia : decodeStored t lss regionStart fatSize vol mainFat 0 &&& 0xFF
      = mediaType)
    (hmk : mkFatF vol lss t fatSize regionSize regionStart totalClusters
      mediaType mainFat true = .ok st)
    (hkey : key < totalClusters + 2) (hval : v ≤ clusterEoc t) :
    ∃ st2 st3,
      setItemF st key v = .ok st2 ∧
      flushF st2 = .ok st3 ∧
      st3.vol.length = vol.length ∧
      getItemF st3 key = .ok (st3, v) ∧
      (∀ i, i < regionSize / fatSize →
        decodeStored t lss regionStart fatSize st3.vol i key = v) ∧
      (t = .fat32 → ∀ i, i < regionSize / fatSize →
        rawStored t lss regionStart fatSize st3.vol i key =
          (rawStored t lss regionStart fatSize vol mainFat key &&&
            0xF0000000) ||| v) ∧
      (decodeStored t lss regionStart fatSize st3.vol mainFat 0 &&& 0xFF =
          mediaType →
        ∃ st4 r, mkFatF st3.vol lss t fatSize regionSize regionStart
            totalClusters mediaType mainFat true = .ok st4 ∧
          getItemF st4 key = .ok (r, v)) := by
  have hok := mkFatF_ok vol lss t fatSize regionSize regionStart
    totalClusters mediaType mainFat true hl hdiv hfs hcl hfit hmain hvol
    hmedia
  rw [hok] at hmk
  have hst : st = ⟨t, lss, fatSize, regionSize / fatSize, mainFat,
      regionStart, totalClusters + 2, true, vol,
      sliceB ((regionStart + mainFat * fatSize) * lss)
        (buffSectors t * lss) vol, some 0, false⟩ :=
    (Except.ok.inj hmk).symm
  subst hst
  obtain ⟨hspan, hwinb, hso⟩ := getIoInfo_spec t lss key
    (totalClusters + 2) fatSize hl hdiv hkey hfit
  have hposW : ∀ i, i < regionSize / fatSize →
      regionStart + i * fatSize + (getIoInfo t lss key).1 + buffSectors t ≤
        vol.length / lss :=
    fun i hi => window_pos_le lss fatSize (regionSize / fatSize)
      regionStart i (getIoInfo t lss key).1 (buffSectors t) vol.length hl
      hfs hi hso hvol
  have hensGen : ∀ volX : List Nat, volX.length = vol.length →
      ensureBuffer ⟨t, lss, fatSize, regionSize / fatSize, mainFat,
        regionStart, totalClusters + 2, true, volX,
        sliceB ((regionStart + mainFat * fatSize) * lss)
          (buffSectors t * lss) volX, some 0, false⟩
        (getIoInfo t lss key).1 =
      .ok ⟨t, lss, fatSize, regionSize / fatSize, mainFat, regionStart,
        totalClusters + 2, true, volX,
        sliceB ((regionStart + mainFat * fatSize + (getIoInfo t lss key).1)
          * lss) (buffSectors t * lss) volX,
        some (getIoInfo t lss key).1, false⟩ := by
    intro volX hXlen
    by_cases h0 : (getIoInfo t lss key).1 = 0
    · rw [h0, ensureBuffer_noop _ 0 hfs rfl]
      norm_num
    · refine ensureBuffer_load _ _ hso ?_ rfl hl ?_
      · simp only [Option.some.injEq]
        omega
      · show regionStart + mainFat * fatSize + (getIoInfo t lss key).1 +
          buffSectors t ≤ volX.length / lss
        rw [hXlen]
        exact hposW mainFat hmain
  have hset : setItemF ⟨t, lss, fatSize, regionSize / fatSize, mainFat,
      regionStart, totalClusters + 2, true, vol,
      sliceB ((regionStart + mainFat * fatSize) * lss)
        (buffSectors t * lss) vol, some 0, false⟩ key v =
      .ok ⟨t, lss, fatSize, regionSize / fatSize, mainFat, regionStart,
        totalClusters + 2, true, vol,
        (sliceB ((regionStart + mainFat * fatSize +
            (getIoInfo t lss key).1) * lss) (buffSectors t * lss)
            vol).take (getIoInfo t lss key).2.1 ++
          leBytes (mergedVal t key v (leNum
            (sliceB (getIoInfo t lss key).2.1 (getIoInfo t lss key).2.2
              (sliceB ((regionStart + mainFat * fatSize +
                (getIoInfo t lss key).1) * lss) (buffSectors t * lss)
                vol)))) (getIoInfo t lss key).2.2 ++
          (sliceB ((regionStart + mainFat * fatSize +
            (getIoInfo t lss key).1) * lss) (buffSectors t * lss)
            vol).drop ((getIoInfo t lss key).2.1 +
              (getIoInfo t lss key).2.2),
        some (getIoInfo t lss key).1, true⟩ :=
    setItemF_ok _ _ key v rfl hkey hval (hensGen vol rfl)
  have hWlen : ((regionStart + mainFat * fatSize +
      (getIoInfo t lss key).1) + buffSectors t) * lss ≤ vol.length := by
    calc ((regionStart + mainFat * fatSize + (getIoInfo t lss key).1) +
          buffSectors t) * lss
        ≤ vol.length / lss * lss :=
          Nat.mul_le_mul_right lss (hposW mainFat hmain)
      _ ≤ vol.length := Nat.div_mul_le_self _ _
  have hWexp : ((regionStart + mainFat * fatSize +
      (getIoInfo t lss key).1) + buffSectors t) * lss =
      (regionStart + mainFat * fatSize + (getIoInfo t lss key).1) * lss +
        buffSectors t * lss := by ring
  have hbufW : (sliceB ((regionStart + mainFat * fatSize +
      (getIoInfo t lss key).1) * lss) (buffSectors t * lss) vol).length =
      buffSectors t * lss :=
    sliceB_length _ _ _ (by omega)
  have hb2len : ((sliceB ((regionStart + mainFat * fatSize +
      (getIoInfo t lss key).1) * lss) (buffSectors t * lss)
      vol).take (getIoInfo t lss key).2.1 ++
    leBytes (mergedVal t key v (leNum
      (sliceB (getIoInfo t lss key).2.1 (getIoInfo t lss key).2.2
        (sliceB ((regionStart + mainFat * fatSize +
          (getIoInfo t lss key).1) * lss) (buffSectors t * lss)
          vol)))) (getIoInfo t lss key).2.2 ++
    (sliceB ((regionStart + mainFat * fatSize +
      (getIoInfo t lss key).1) * lss) (buffSectors t * lss)
      vol).drop ((getIoInfo t lss key).2.1 +
        (getIoInfo t lss key).2.2)).length = buffSectors t * lss := by
    rw [List.length_append, List.length_append, List.length_take,
      List.length_drop, leBytes_length, hbufW]
    omega
  set bufW : List Nat := sliceB ((regionStart + mainFat * fatSize +
    (getIoInfo t lss key).1) * lss) (buffSectors t * lss) vol with hbufWdef
  set buf2 : List Nat := bufW.take (getIoInfo t lss key).2.1 ++
    leBytes (mergedVal t key v (leNum
      (sliceB (getIoInfo t lss key).2.1 (getIoInfo t lss key).2.2 bufW)))
      (getIoInfo t lss key).2.2 ++
    bufW.drop ((getIoInfo t lss key).2.1 + (getIoInfo t lss key).2.2)
    with hbuf2def
  have hstarts : ∀ s ∈ fatStarts ⟨t, lss, fatSize, regionSize / fatSize,
      mainFat, regionStart, totalClusters + 2, true, vol, buf2,
      some (getIoInfo t lss key).1, true⟩,
      s + (getIoInfo t lss key).1 + buffSectors t ≤ vol.length / lss := by
    intro s hs
    have hfse : fatStarts ⟨t, lss, fatSize, regionSize / fatSize,
        mainFat, regionStart, totalClusters + 2, true, vol, buf2,
        some (getIoInfo t lss key).1, true⟩ =
        (List.range (regionSize / fatSize)).map
          (fun i => regionStart + i * fatSize) := rfl
    rw [hfse] at hs
    obtain ⟨i, hi, hieq⟩ := List.mem_map.mp hs
    rw [← hieq]
    exact hposW i (List.mem_range.mp hi)
  obtain ⟨vol3, hwf, hlen3⟩ := writeFatsGo_ok lss (getIoInfo t lss key).1
    (buffSectors t) buf2 hl (buffSectors_pos t) hb2len
    (fatStarts ⟨t, lss, fatSize, regionSize / fatSize, mainFat,
      regionStart, totalClusters + 2, true, vol, buf2,
      some (getIoInfo t lss key).1, true⟩) vol hstarts
  have hflush : flushF ⟨t, lss, fatSize, regionSize / fatSize, mainFat,
      regionStart, totalClusters + 2, true, vol, buf2,
      some (getIoInfo t lss key).1, true⟩ =
      .ok ⟨t, lss, fatSize, regionSize / fatSize, mainFat, regionStart,
        totalClusters + 2, true, vol3, buf2,
        some (getIoInfo t lss key).1, false⟩ :=
    flushF_write _ (getIoInfo t lss key).1 vol3 rfl rfl hwf
  have htk : (bufW.take (getIoInfo t lss key).2.1).length =
      (getIoInfo t lss key).2.1 := by
    rw [List.length_take]
    omega
  have hslice2 : sliceB (getIoInfo t lss key).2.1 (getIoInfo t lss key).2.2
      buf2 = leBytes (mergedVal t key v (leNum
        (sliceB (getIoInfo t lss key).2.1 (getIoInfo t lss key).2.2 bufW)))
        (getIoInfo t lss key).2.2 := by
    have hsa := sliceB_append_inside
      (bufW.take (getIoInfo t lss key).2.1)
      (leBytes (mergedVal t key v (leNum
        (sliceB (getIoInfo t lss key).2.1 (getIoInfo t lss key).2.2 bufW)))
        (getIoInfo t lss key).2.2)
      (bufW.drop ((getIoInfo t lss key).2.1 + (getIoInfo t lss key).2.2))
      0 (getIoInfo t lss key).2.2 (by rw [leBytes_length]; omega)
    rw [htk, Nat.add_zero] at hsa
    rw [hbuf2def, hsa]
    unfold sliceB
    rw [List.drop_zero]
    exact List.take_of_length_le (by rw [leBytes_length])
  have hm : leNum (leBytes (mergedVal t key v (leNum
      (sliceB (getIoInfo t lss key).2.1 (getIoInfo t lss key).2.2 bufW)))
      (getIoInfo t lss key).2.2) =
      mergedVal t key v (leNum
        (sliceB (getIoInfo t lss key).2.1 (getIoInfo t lss key).2.2 bufW))
    :=
    leNum_leBytes_of_lt _ _ (mergedVal_lt t lss key v _ hval)
  have hA : getItemF ⟨t, lss, fatSize, regionSize / fatSize, mainFat,
      regionStart, totalClusters + 2, true, vol3, buf2,
      some (getIoInfo t lss key).1, false⟩ key =
      .ok (⟨t, lss, fatSize, regionSize / fatSize, mainFat, regionStart,
        totalClusters + 2, true, vol3, buf2,
        some (getIoInfo t lss key).1, false⟩, v) := by
    rw [getItemF_noop_val _ key hkey hso rfl]
    simp only [hslice2, hm,
      decodeVal_mergedVal t key v (leNum (sliceB (getIoInfo t lss key).2.1
        (getIoInfo t lss key).2.2 bufW)) hval]
  have hB : ∀ i, i < regionSize / fatSize →
      decodeStored t lss regionStart fatSize vol3 i key = v := by
    intro i hi
    have hent := writeFats_entry lss (getIoInfo t lss key).1
      (buffSectors t) regionStart fatSize (regionSize / fatSize) i
      (getIoInfo t lss key).2.1 (getIoInfo t lss key).2.2 buf2 vol vol3 hl
      (buffSectors_pos t) hb2len hi (by omega) hspan hwf
    rw [decodeStored_eq]
    show decodeVal t key (leNum (sliceB ((regionStart + i * fatSize +
      (getIoInfo t lss key).1) * lss + (getIoInfo t lss key).2.1)
      (getIoInfo t lss key).2.2 vol3)) = v
    rw [hent, hslice2, hm, decodeVal_mergedVal t key v _ hval]
  have hC : t = .fat32 → ∀ i, i < regionSize / fatSize →
      rawStored t lss regionStart fatSize vol3 i key =
        (rawStored t lss regionStart fatSize vol mainFat key &&&
          0xF0000000) ||| v := by
    intro ht i hi
    subst ht
    have hent := writeFats_entry lss (getIoInfo .fat32 lss key).1
      (buffSectors .fat32) regionStart fatSize (regionSize / fatSize) i
      (getIoInfo .fat32 lss key).2.1 (getIoInfo .fat32 lss key).2.2 buf2
      vol vol3 hl (buffSectors_pos .fat32) hb2len hi (by omega) hspan hwf
    have hold : sliceB (getIoInfo .fat32 lss key).2.1
        (getIoInfo .fat32 lss key).2.2 bufW =
        sliceB ((regionStart + mainFat * fatSize +
          (getIoInfo .fat32 lss key).1) * lss +
          (getIoInfo .fat32 lss key).2.1)
          (getIoInfo .fat32 lss key).2.2 vol := by
      rw [hbufWdef]
      exact sliceB_sliceB _ _ _ _ _ hwinb
    show leNum (sliceB ((regionStart + i * fatSize +
      (getIoInfo .fat32 lss key).1) * lss + (getIoInfo .fat32 lss key).2.1)
      (getIoInfo .fat32 lss key).2.2 vol3) =
      (leNum (sliceB ((regionStart + mainFat * fatSize +
        (getIoInfo .fat32 lss key).1) * lss +
        (getIoInfo .fat32 lss key).2.1)
        (getIoInfo .fat32 lss key).2.2 vol) &&& 0xF0000000) ||| v
    rw [hent, hslice2, hm, ← hold]
    rfl
  have hD : decodeStored t lss regionStart fatSize vol3 mainFat 0 &&& 0xFF
      = mediaType →
      ∃ st4 r, mkFatF vol3 lss t fatSize regionSize regionStart
          totalClusters mediaType mainFat true = .ok st4 ∧
        getItemF st4 key = .ok (r, v) := by
    intro hm2
    have hvol3 : (regionStart + regionSize / fatSize * fatSize +
        buffSectors t - 1) * lss ≤ vol3.length := by
      rw [hlen3]
      exact hvol
    have hok4 := mkFatF_ok vol3 lss t fatSize regionSize regionStart
      totalClusters mediaType mainFat true hl hdiv hfs hcl hfit hmain
      hvol3 hm2
    refine ⟨_, ⟨t, lss, fatSize, regionSize / fatSize, mainFat,
      regionStart, totalClusters + 2, true, vol3,
      sliceB ((regionStart + mainFat * fatSize +
        (getIoInfo t lss key).1) * lss) (buffSectors t * lss) vol3,
      some (getIoInfo t lss key).1, false⟩, hok4, ?_⟩
    have hens4 := hensGen vol3 hlen3
    have hget4 := getItemF_decode2 _ _ key hl hdiv hkey hfit hens4 rfl
    rw [hget4, hB mainFat hmain]
  exact ⟨_, _, hset, hflush, hlen3, hA, hB, hC, hD⟩
/-- A 20-byte volume for a FAT16 with 4-byte sectors: boot sector, then
two FAT copies of 2 sectors each (entries `FFF8 FFFF 0000 0000`,
media descriptor `0xF8`), starting at sector 1. -/
def c3vol : List Nat :=
  [0, 0, 0, 0,
   0xF8, 0xFF, 0xFF, 0xFF, 0, 0, 0, 0,
   0xF8, 0xFF, 0xFF, 0xFF, 0, 0, 0, 0]

/-- C3 counterexample: the claim says that after `fat[k] = v; fat.flush()`
the value reads back `v` *including after re-constructing the `Fat` from
the volume*, for every `0 ≤ k < len(fat)` and `0 ≤ v ≤ EOC`.  For `k = 0`,
`v = 0` (a legal index and value) the write and flush succeed, but
re-construction raises `ValidationError`: entry 0 is the media-descriptor
entry, and `Fat.__init__` checks `self[0] & 0xFF` against the BPB media
type, which the write just destroyed. -/
theorem c3_counter_reopen_fails :
    (mkFatF c3vol 4 .fat16 2 4 1 2 0xF8 0 true).map (fun st =>
      (setItemF st 0 0).map (fun st2 =>
        (flushF st2).map (fun st3 =>
          mkFatF st3.vol 4 .fat16 2 4 1 2 0xF8 0 true))) =
    .ok (.ok (.ok (.error .validationError))) := rfl
/-- Witness for the C3 hypotheses: on the concrete FAT16 volume `c3vol`,
writing value 3 at entry 2 and flushing satisfies every hypothesis and
conclusion of the amended theorem. -/
theorem c3_amended_witness :
    ∃ st2 st3,
      setItemF ⟨.fat16, 4, 2, 2, 0, 1, 4, true, c3vol,
        [0xF8, 0xFF, 0xFF, 0xFF], some 0, false⟩ 2 3 = .ok st2 ∧
      flushF st2 = .ok st3 ∧
      st3.vol.length = c3vol.length ∧
      getItemF st3 2 = .ok (st3, 3) ∧
      (∀ i, i < 4 / 2 → decodeStored .fat16 4 1 2 st3.vol i 2 = 3) ∧
      (FatKind.fat16 = FatKind.fat32 → ∀ i, i < 4 / 2 →
        rawStored .fat16 4 1 2 st3.vol i 2 =
          (rawStored .fat16 4 1 2 c3vol 0 2 &&& 0xF0000000) ||| 3) ∧
      (decodeStored .fat16 4 1 2 st3.vol 0 0 &&& 0xFF = 0xF8 →
        ∃ st4 r, mkFatF st3.vol 4 .fat16 2 4 1 2 0xF8 0 true = .ok st4 ∧
          getItemF st4 2 = .ok (r, 3)) :=
  c3_amended_set_flush c3vol 4 .fat16 2 4 1 2 0xF8 0 2 3
    ⟨.fat16, 4, 2, 2, 0, 1, 4, true, c3vol, [0xF8, 0xFF, 0xFF, 0xFF],
      some 0, false⟩
    (by decide) ⟨1, rfl⟩ (by decide) (by decide) (by decide)
    (by decide) (by decide) (by decide) rfl (by decide)
    (by decide)
